import Mathlib

/-!
Verification of the audio-control translation pipeline.

This file embeds, as executable Lean definitions, the core of the
repository: the canonical MIDI map data model and its schema validator
(src/modules/canonical-midi-maps/src/validators/schema.ts), the map parser
(src/modules/canonical-midi-maps/src/parsers/yaml-parser.ts), the binding
resolution heuristic of the Ardour generator script
(src/modules/ardour-midi-maps/scripts/generate-ardour-maps.ts), the
MidiMapBuilder accumulator, and the Ardour XML serializer
(src/modules/ardour-midi-maps/src/serializers/xml-serializer.ts).
Theorems about these definitions settle the testable properties stated in
the specification.

Numbers of the source language are embedded as rationals (the schema
checks ranges on plain numbers, without an integrality requirement), and
fallible operations return Except values.
-/

/-- JSON-like document tree: the in-memory value produced by decoding one
of the two accepted structured-text syntaxes, and consumed by the schema
validator. -/
inductive Json where
  | null : Json
  | bool (b : Bool) : Json
  | num (q : Rat) : Json
  | str (s : String) : Json
  | arr (elems : List Json) : Json
  | obj (fields : List (String × Json)) : Json

/-- MIDI input kinds of the canonical schema (z.enum in schema.ts). -/
inductive MidiInputType where
  | cc | note | pitchbend | aftertouch | program
deriving DecidableEq

/-- String form of a MIDI input kind, as it appears in documents. -/
def MidiInputType.toStr : MidiInputType → String
  | .cc => "cc"
  | .note => "note"
  | .pitchbend => "pitchbend"
  | .aftertouch => "aftertouch"
  | .program => "program"

/-- Decode a MIDI input kind from its document string. -/
def MidiInputType.ofStr : String → Option MidiInputType
  | "cc" => some .cc
  | "note" => some .note
  | "pitchbend" => some .pitchbend
  | "aftertouch" => some .aftertouch
  | "program" => some .program
  | _ => none

/-- Plugin target kinds (z.enum in schema.ts); the source spelling of the
fourth kind is the string "macro". -/
inductive PluginTargetType where
  | parameter | bypass | preset | macroKind
deriving DecidableEq

/-- String form of a plugin target kind. -/
def PluginTargetType.toStr : PluginTargetType → String
  | .parameter => "parameter"
  | .bypass => "bypass"
  | .preset => "preset"
  | .macroKind => "macro"

/-- Decode a plugin target kind from its document string. -/
def PluginTargetType.ofStr : String → Option PluginTargetType
  | "parameter" => some .parameter
  | "bypass" => some .bypass
  | "preset" => some .preset
  | "macro" => some .macroKind
  | _ => none

/-- Interaction modes of the input behavior descriptor. -/
inductive InputMode where
  | absolute | relative | toggle | momentary
deriving DecidableEq

/-- String form of an interaction mode. -/
def InputMode.toStr : InputMode → String
  | .absolute => "absolute"
  | .relative => "relative"
  | .toggle => "toggle"
  | .momentary => "momentary"

/-- Decode an interaction mode. -/
def InputMode.ofStr : String → Option InputMode
  | "absolute" => some .absolute
  | "relative" => some .relative
  | "toggle" => some .toggle
  | "momentary" => some .momentary
  | _ => none

/-- Response curve kinds (shared by input behavior and mapping behavior). -/
inductive CurveType where
  | linear | exponential | logarithmic | custom
deriving DecidableEq

/-- String form of a curve kind. -/
def CurveType.toStr : CurveType → String
  | .linear => "linear"
  | .exponential => "exponential"
  | .logarithmic => "logarithmic"
  | .custom => "custom"

/-- Decode a curve kind. -/
def CurveType.ofStr : String → Option CurveType
  | "linear" => some .linear
  | "exponential" => some .exponential
  | "logarithmic" => some .logarithmic
  | "custom" => some .custom
  | _ => none

/-- Plugin format tags of the plugin descriptor. -/
inductive PluginFormat where
  | vst | vst3 | au | aax | lv2 | clap
deriving DecidableEq

/-- String form of a plugin format tag. -/
def PluginFormat.toStr : PluginFormat → String
  | .vst => "VST"
  | .vst3 => "VST3"
  | .au => "AU"
  | .aax => "AAX"
  | .lv2 => "LV2"
  | .clap => "CLAP"

/-- Decode a plugin format tag. -/
def PluginFormat.ofStr : String → Option PluginFormat
  | "VST" => some .vst
  | "VST3" => some .vst3
  | "AU" => some .au
  | "AAX" => some .aax
  | "LV2" => some .lv2
  | "CLAP" => some .clap
  | _ => none

/-- Value range attached to inputs and targets (ValueRangeSchema). -/
structure ValueRange where
  min : Rat
  max : Rat
  default : Option Rat
deriving DecidableEq

/-- Input behavior descriptor (InputBehaviorSchema). -/
structure InputBehavior where
  mode : Option InputMode
  sensitivity : Option Rat
  deadzone : Option Rat
  curve : Option CurveType
  invert : Option Bool
deriving DecidableEq

/-- Mapping behavior descriptor (MappingBehaviorSchema). -/
structure MappingBehavior where
  scaling : Option CurveType
  curve : Option (List Rat)
  quantize : Option Rat
  smoothing : Option Rat
  bipolar : Option Bool
deriving DecidableEq

/-- MIDI input definition of a mapping entry (MidiInputDefinitionSchema). -/
structure MidiInputDefinition where
  type : MidiInputType
  channel : Option Rat
  number : Option Rat
  range : Option ValueRange
  behavior : Option InputBehavior
deriving DecidableEq

/-- Plugin target definition of a mapping entry
(PluginTargetDefinitionSchema). -/
structure PluginTargetDefinition where
  type : PluginTargetType
  identifier : String
  name : Option String
  range : Option ValueRange
  units : Option String
  category : Option String
deriving DecidableEq

/-- One canonical mapping entry (MidiMappingSchema); the enabled flag is
defaulted to true by the schema, so it is always present on the typed map. -/
structure MidiMapping where
  id : String
  description : Option String
  midiInput : MidiInputDefinition
  pluginTarget : PluginTargetDefinition
  mapping : Option MappingBehavior
  enabled : Bool
deriving DecidableEq

/-- Map level metadata (MapMetadataSchema). -/
structure MapMetadata where
  name : String
  version : String
  description : Option String
  author : Option String
  created : Option String
  updated : Option String
  tags : Option (List String)
deriving DecidableEq

/-- Controller descriptor (ControllerDefinitionSchema). -/
structure ControllerDefinition where
  manufacturer : String
  model : String
  version : Option String
  description : Option String
  midiChannel : Option Rat
  notes : Option String
deriving DecidableEq

/-- Plugin descriptor (PluginDefinitionSchema). -/
structure PluginDefinition where
  manufacturer : String
  name : String
  version : Option String
  format : Option PluginFormat
  description : Option String
  notes : Option String
deriving DecidableEq

/-- The validated canonical map (CanonicalMidiMapSchema output). -/
structure CanonicalMidiMap where
  metadata : MapMetadata
  controller : ControllerDefinition
  plugin : PluginDefinition
  mappings : List MidiMapping
deriving DecidableEq

/-- Substring test on character lists, mirroring the JavaScript
String.prototype.includes method. -/
def charsIncludes (hay needle : List Char) : Bool :=
  match hay with
  | [] => needle.isEmpty
  | _ :: t => needle.isPrefixOf hay || charsIncludes t needle

/-- JavaScript hay.includes(needle) on strings. -/
def jsIncludes (hay needle : String) : Bool :=
  charsIncludes hay.data needle.data

/-- JavaScript String.prototype.toLowerCase, modelled characterwise (the
strings the heuristics lower-case are plain ASCII). -/
def jsToLower (s : String) : String :=
  ⟨s.data.map Char.toLower⟩

/-- Resolution outcome of the generator script: an optional symbolic
function name and an optional addressable parameter path (the ad hoc
ArdourBinding interface of generate-ardour-maps.ts). -/
structure ScriptBinding where
  function : Option String
  uri : Option String
deriving DecidableEq

/-- Embedding of convertToArdourBinding from
src/modules/ardour-midi-maps/scripts/generate-ardour-maps.ts, lines 53 to
121: the heuristic that decides, for one canonical mapping entry, the
target control reference. -/
def convertToArdourBinding (pt : PluginTargetDefinition) : ScriptBinding :=
  let category := jsToLower (pt.category.getD (""))
  let name := jsToLower (pt.name.getD (""))
  let paramId := pt.identifier
  match pt.type with
  | .bypass => ⟨some ("toggle-plugin-bypass"), none⟩
  | .parameter => ⟨none, some ("/route/plugin/parameter S1 1 " ++ paramId)⟩
  | _ =>
    if jsIncludes category ("global") then
      if jsIncludes name ("bypass") then ⟨some ("toggle-plugin-bypass"), none⟩
      else if jsIncludes name ("window") then ⟨some ("toggle-editor-window"), none⟩
      else ⟨some ("track-select[1]"), none⟩
    else if jsIncludes category ("preamp") || jsIncludes name ("gain") then
      if jsIncludes name ("mic") then ⟨some ("track-set-gain[1]"), none⟩
      else ⟨some ("track-set-trim[1]"), none⟩
    else if jsIncludes category ("eq") then
      if jsIncludes name ("low") && !(jsIncludes name ("mid")) then
        ⟨some ("track-set-send-gain[1,1]"), none⟩
      else if jsIncludes name ("low-mid") || jsIncludes name ("low mid") then
        ⟨some ("track-set-send-gain[1,2]"), none⟩
      else if jsIncludes name ("high-mid") || jsIncludes name ("high mid") then
        ⟨some ("track-set-send-gain[1,3]"), none⟩
      else if jsIncludes name ("high") && !(jsIncludes name ("mid")) then
        ⟨some ("track-set-send-gain[1,4]"), none⟩
      else ⟨some ("track-set-send-gain[1,1]"), none⟩
    else if jsIncludes category ("compressor") || jsIncludes name ("comp") then
      if jsIncludes name ("threshold") then ⟨some ("track-set-send-gain[1,5]"), none⟩
      else if jsIncludes name ("ratio") then ⟨some ("track-set-send-gain[1,6]"), none⟩
      else if jsIncludes name ("release") then ⟨some ("track-set-send-gain[1,7]"), none⟩
      else ⟨some ("track-set-send-gain[1,8]"), none⟩
    else if jsIncludes category ("limiter") || jsIncludes name ("limit") then
      ⟨some ("track-set-trim[1]"), none⟩
    else if jsIncludes category ("tape") || jsIncludes name ("tape") then
      ⟨some ("track-set-pan[1]"), none⟩
    else if jsIncludes category ("filter") then
      ⟨some ("track-set-send-gain[1,1]"), none⟩
    else
      ⟨none, some ("/route/plugin/parameter S1 1 " ++ paramId)⟩

/-- C3: for every mapping entry whose plugin target kind is bypass, the
resolution heuristic returns the fixed toggle-plugin-bypass symbolic
function and no addressable parameter path, regardless of the identifier,
name, range, units and category fields. -/
theorem c3_bypass_resolution (id : String) (nm : Option String)
    (rg : Option ValueRange) (un : Option String) (cat : Option String) :
    convertToArdourBinding ⟨.bypass, id, nm, rg, un, cat⟩ =
      ⟨some ("toggle-plugin-bypass"), none⟩ := rfl

/-- C2 counterexample: a mapping entry with category EQ and name Tone whose
plugin target kind is parameter resolves to an addressable parameter path,
not to the band-1 auxiliary-send symbolic function, so the claim quantified
over every entry with that category and name fails. -/
theorem c2_counterexample :
    convertToArdourBinding ⟨.parameter, "tone-id", some ("Tone"), none, none, some ("EQ")⟩ =
      ⟨none, some ("/route/plugin/parameter S1 1 tone-id")⟩ ∧
    convertToArdourBinding ⟨.parameter, "tone-id", some ("Tone"), none, none, some ("EQ")⟩ ≠
      ⟨some ("track-set-send-gain[1,1]"), none⟩ := by
  refine ⟨rfl, ?_⟩
  decide

/-- C2 (amended): for every mapping entry with category EQ and name Tone
whose plugin target kind is neither bypass nor parameter, the resolution
heuristic reaches the equalizer branch and, since the name holds no band
keyword, falls back to the band-1 auxiliary-send symbolic function. -/
theorem c2_eq_band_fallback (t : PluginTargetType) (id : String)
    (rg : Option ValueRange) (un : Option String)
    (hb : t ≠ PluginTargetType.bypass) (hp : t ≠ PluginTargetType.parameter) :
    convertToArdourBinding ⟨t, id, some ("Tone"), rg, un, some ("EQ")⟩ =
      ⟨some ("track-set-send-gain[1,1]"), none⟩ := by
  cases t with
  | bypass => exact absurd rfl hb
  | parameter => exact absurd rfl hp
  | preset => rfl
  | macroKind => rfl

/-- C2 witness: the amended theorem applied at the preset kind. -/
theorem c2_eq_band_fallback_witness :
    PluginTargetType.preset ≠ PluginTargetType.bypass ∧
    convertToArdourBinding ⟨.preset, "x", some ("Tone"), none, none, some ("EQ")⟩ =
      ⟨some ("track-set-send-gain[1,1]"), none⟩ :=
  ⟨by decide, c2_eq_band_fallback .preset "x" none none (by decide) (by decide)⟩

/-- One resolved target binding. Modelled from the spec: the Binding entity
of section 3 (required channel, at most one of controller/note number, an
optional resolved reference that is a symbolic function or an addressable
path, and optional behavior flags); the declaring types module of the
repository is absent from the sources, so the field set is the set of
fields the builder writes and the serializer reads. -/
structure ArdourBinding where
  channel : Int
  ctl : Option Int
  note : Option Int
  encR : Option Int
  rpn : Option Int
  nrpn : Option Int
  rpn14 : Option Int
  nrpn14 : Option Int
  function : Option String
  uri : Option String
  action : Option String
  encoder : Option String
  momentary : Option String
  threshold : Option Int
deriving DecidableEq

/-- Device descriptor of a target map. Modelled from the spec: a free-form
key/attribute bag with a device name (section 3, Target Map). -/
structure ArdourDeviceInfo where
  deviceName : String
  deviceInfo : List (String × Int)
deriving DecidableEq

/-- The target map value handed out by the builder and consumed by the
serializer. -/
structure ArdourMidiMap where
  name : String
  version : Option String
  deviceInfo : Option ArdourDeviceInfo
  bindings : List ArdourBinding
deriving DecidableEq

/-- Options of MidiMapBuilder.addCCBinding (CCBindingOptions of the builder
module): the base BindingOptions fields plus the controller number. -/
structure CCBindingOptions where
  channel : Int
  function : String
  action : Option String
  encoder : Option Bool
  momentary : Option Bool
  threshold : Option Int
  controller : Int
deriving DecidableEq

/-- Options of MidiMapBuilder.addNoteBinding (NoteBindingOptions). -/
structure NoteBindingOptions where
  channel : Int
  function : String
  action : Option String
  encoder : Option Bool
  momentary : Option Bool
  threshold : Option Int
  note : Int
deriving DecidableEq

/-- The binding value appended by addCCBinding: channel, ctl and function
always set, then the optional action, encoder, momentary and threshold
fields copied when present (truthy for the two flags). -/
def mkCCBinding (o : CCBindingOptions) : ArdourBinding :=
  { channel := o.channel
    ctl := some o.controller
    note := none
    encR := none, rpn := none, nrpn := none, rpn14 := none, nrpn14 := none
    function := some o.function
    uri := none
    action := o.action
    encoder := if o.encoder.getD false then some ("yes") else none
    momentary := if o.momentary.getD false then some ("yes") else none
    threshold := o.threshold }

/-- The binding value appended by addNoteBinding: channel, note and
function always set; addNoteBinding has no encoder handling. -/
def mkNoteBinding (o : NoteBindingOptions) : ArdourBinding :=
  { channel := o.channel
    ctl := none
    note := some o.note
    encR := none, rpn := none, nrpn := none, rpn14 := none, nrpn14 := none
    function := some o.function
    uri := none
    action := o.action
    encoder := none
    momentary := if o.momentary.getD false then some ("yes") else none
    threshold := o.threshold }

/-- State of one MidiMapBuilder together with the array heap it mutates:
arrays is the collection of binding arrays allocated so far (the builder's
private accumulator and every snapshot array handed out by build), and ref
is the index of the array the builder currently appends to.  The explicit
heap makes the aliasing behavior of build and clear expressible. -/
structure BuilderState where
  arrays : List (List ArdourBinding)
  ref : Nat
  name : String
  version : Option String
deriving DecidableEq

/-- A fresh builder (the MidiMapBuilder constructor): one empty
accumulator array. -/
def MidiMapBuilder.new (name : String) (version : Option String) : BuilderState :=
  ⟨[[]], 0, name, version⟩

/-- Read the array at heap index r (an absent index reads as empty). -/
def readArray (s : BuilderState) (r : Nat) : List ArdourBinding :=
  (s.arrays[r]?).getD []

/-- The this.bindings.push step shared by the two append operations. -/
def pushBinding (s : BuilderState) (b : ArdourBinding) : BuilderState :=
  { s with arrays := s.arrays.set s.ref (readArray s s.ref ++ [b]) }

/-- MidiMapBuilder.addCCBinding. -/
def MidiMapBuilder.addCCBinding (s : BuilderState) (o : CCBindingOptions) : BuilderState :=
  pushBinding s (mkCCBinding o)

/-- MidiMapBuilder.addNoteBinding. -/
def MidiMapBuilder.addNoteBinding (s : BuilderState) (o : NoteBindingOptions) : BuilderState :=
  pushBinding s (mkNoteBinding o)

/-- The five symbolic functions of the transport group. -/
def transportFunctions : List String :=
  ["transport-stop", "transport-roll", "toggle-rec-enable", "toggle-roll", "stop-forget"]

/-- MidiMapBuilder.addTransportControls: one momentary note binding per
transport function, at consecutive note numbers. -/
def MidiMapBuilder.addTransportControls (s : BuilderState) (channel startNote : Int) :
    BuilderState :=
  transportFunctions.enum.foldl
    (fun st p =>
      MidiMapBuilder.addNoteBinding st
        { channel := channel, function := p.2, action := none, encoder := none,
          momentary := some true, threshold := none, note := startNote + (p.1 : Int) })
    s

/-- MidiMapBuilder.addChannelStripControls: three continuous-controller
bindings followed by four note bindings, all indexed by the strip number. -/
def MidiMapBuilder.addChannelStripControls (s : BuilderState)
    (channel stripNumber baseCC : Int) : BuilderState :=
  let stripControls : List (Int × String) :=
    [(baseCC, "track-set-gain"), (baseCC + 1, "track-set-pan"),
     (baseCC + 2, "track-set-send-gain")]
  let s1 := stripControls.foldl
    (fun st p =>
      MidiMapBuilder.addCCBinding st
        { channel := channel, function := p.2 ++ "[" ++ toString stripNumber ++ "]",
          action := none, encoder := none, momentary := none, threshold := none,
          controller := p.1 })
    s
  let buttonControls : List (Int × String) :=
    [(baseCC, "toggle-track-mute"), (baseCC + 1, "toggle-track-solo"),
     (baseCC + 2, "toggle-rec-enable"), (baseCC + 3, "track-select")]
  buttonControls.foldl
    (fun st p =>
      MidiMapBuilder.addNoteBinding st
        { channel := channel, function := p.2 ++ "[" ++ toString stripNumber ++ "]",
          action := none, encoder := none,
          momentary := some (p.2 == "track-select"), threshold := none,
          note := p.1 })
    s1

/-- MidiMapBuilder.clear: this.bindings = [] allocates a fresh empty array
and repoints the builder at it; previously allocated arrays are untouched. -/
def MidiMapBuilder.clear (s : BuilderState) : BuilderState :=
  { s with arrays := s.arrays ++ [[]], ref := s.arrays.length }

/-- A built snapshot: name and version are copied values, and ref points at
the freshly allocated copy of the binding sequence. -/
structure MapSnapshot where
  name : String
  version : Option String
  ref : Nat
deriving DecidableEq

/-- MidiMapBuilder.build: allocates a fresh array holding a copy of the
current accumulator contents (the spread [...this.bindings]) and returns a
snapshot referring to it; the builder keeps appending to its own array. -/
def MidiMapBuilder.build (s : BuilderState) : BuilderState × MapSnapshot :=
  ({ s with arrays := s.arrays ++ [readArray s s.ref] },
   ⟨s.name, s.version, s.arrays.length⟩)

/-- Dereference a snapshot against the heap: the ArdourMidiMap value a
caller observes through the snapshot. -/
def snapshotValue (s : BuilderState) (m : MapSnapshot) : ArdourMidiMap :=
  ⟨m.name, m.version, none, readArray s m.ref⟩

/-- The builder operations a caller can perform after construction. -/
inductive BuilderOp where
  | addCC (o : CCBindingOptions)
  | addNote (o : NoteBindingOptions)
  | addTransport (channel startNote : Int)
  | addChannelStrip (channel stripNumber baseCC : Int)
  | clear
  | build
deriving DecidableEq

/-- Apply one builder operation to the builder state (the snapshot a build
returns is dropped here; its array stays in the heap). -/
def applyOp (s : BuilderState) : BuilderOp → BuilderState
  | .addCC o => MidiMapBuilder.addCCBinding s o
  | .addNote o => MidiMapBuilder.addNoteBinding s o
  | .addTransport c n => MidiMapBuilder.addTransportControls s c n
  | .addChannelStrip c st b => MidiMapBuilder.addChannelStripControls s c st b
  | .clear => MidiMapBuilder.clear s
  | .build => (MidiMapBuilder.build s).1

/-- Apply a sequence of builder operations in order. -/
def applyOps (s : BuilderState) (ops : List BuilderOp) : BuilderState :=
  ops.foldl applyOp s

/-- Mutual exclusivity of a binding: exactly one of ctl and note is set,
and at most one of function and uri is set. -/
def BindingExclusive (b : ArdourBinding) : Prop :=
  ((b.ctl.isSome ∧ b.note = none) ∨ (b.note.isSome ∧ b.ctl = none)) ∧
    (b.function = none ∨ b.uri = none)

instance (b : ArdourBinding) : Decidable (BindingExclusive b) := by
  unfold BindingExclusive; infer_instance

/-- A predicate holding of every binding stored anywhere in the heap. -/
def HeapAll (P : ArdourBinding → Prop) (s : BuilderState) : Prop :=
  ∀ arr ∈ s.arrays, ∀ b ∈ arr, P b

theorem heapAll_readArray {P : ArdourBinding → Prop} {s : BuilderState}
    (h : HeapAll P s) (r : Nat) : ∀ b ∈ readArray s r, P b := by
  intro b hb
  unfold readArray at hb
  cases harr : s.arrays[r]? with
  | none => rw [harr] at hb; simp at hb
  | some arr =>
    rw [harr] at hb
    simp only [Option.getD_some] at hb
    have hmem : arr ∈ s.arrays := by
      obtain ⟨hlt, he⟩ := List.getElem?_eq_some_iff.1 harr
      exact he ▸ List.getElem_mem hlt
    exact h arr hmem b hb

theorem heapAll_pushBinding {P : ArdourBinding → Prop} {s : BuilderState}
    {b : ArdourBinding} (h : HeapAll P s) (hb : P b) :
    HeapAll P (pushBinding s b) := by
  intro arr harr x hx
  rcases List.mem_or_eq_of_mem_set harr with hmem | heq
  · exact h arr hmem x hx
  · subst heq
    rcases List.mem_append.1 hx with hold | hnew
    · exact heapAll_readArray h s.ref x hold
    · simp at hnew; subst hnew; exact hb

theorem heapAll_foldl {α : Type} {P : ArdourBinding → Prop}
    (f : BuilderState → α → BuilderState)
    (hf : ∀ st a, HeapAll P st → HeapAll P (f st a)) :
    ∀ (l : List α) (s : BuilderState), HeapAll P s → HeapAll P (l.foldl f s) := by
  intro l
  induction l with
  | nil => intro s h; exact h
  | cons a t ih => intro s h; exact ih (f s a) (hf s a h)

theorem heapAll_applyOp {P : ArdourBinding → Prop} {s : BuilderState}
    (hCC : ∀ o, P (mkCCBinding o)) (hNote : ∀ o, P (mkNoteBinding o))
    (h : HeapAll P s) (op : BuilderOp) : HeapAll P (applyOp s op) := by
  cases op with
  | addCC o => exact heapAll_pushBinding h (hCC o)
  | addNote o => exact heapAll_pushBinding h (hNote o)
  | addTransport c n =>
    exact heapAll_foldl _ (fun _ _ hst => heapAll_pushBinding hst (hNote _)) _ _ h
  | addChannelStrip c st b =>
    exact heapAll_foldl _ (fun _ _ hst => heapAll_pushBinding hst (hNote _)) _ _
      (heapAll_foldl _ (fun _ _ hst => heapAll_pushBinding hst (hCC _)) _ _ h)
  | clear =>
    intro arr harr x hx
    rcases List.mem_append.1 harr with hmem | hnew
    · exact h arr hmem x hx
    · simp at hnew; subst hnew; simp at hx
  | build =>
    intro arr harr x hx
    rcases List.mem_append.1 harr with hmem | hnew
    · exact h arr hmem x hx
    · simp at hnew; subst hnew; exact heapAll_readArray h s.ref x hx

theorem heapAll_applyOps {P : ArdourBinding → Prop}
    (hCC : ∀ o, P (mkCCBinding o)) (hNote : ∀ o, P (mkNoteBinding o))
    (ops : List BuilderOp) (s : BuilderState) (h : HeapAll P s) :
    HeapAll P (applyOps s ops) :=
  heapAll_foldl applyOp (fun _ op hst => heapAll_applyOp hCC hNote hst op) ops s h

theorem heapAll_new (P : ArdourBinding → Prop) (nm : String) (v : Option String) :
    HeapAll P (MidiMapBuilder.new nm v) := by
  intro arr harr x hx
  simp [MidiMapBuilder.new] at harr
  subst harr; simp at hx

theorem mkCCBinding_exclusive (o : CCBindingOptions) :
    BindingExclusive (mkCCBinding o) :=
  ⟨Or.inl ⟨rfl, rfl⟩, Or.inr rfl⟩

theorem mkNoteBinding_exclusive (o : NoteBindingOptions) :
    BindingExclusive (mkNoteBinding o) :=
  ⟨Or.inr ⟨rfl, rfl⟩, Or.inr rfl⟩

/-- C5: for every sequence of builder operations performed on a fresh
MidiMapBuilder, every binding of a map then returned by build has exactly
one of the controller and note numbers set and at most one of the symbolic
function and the addressable path set: the two append operations are the
only ways a binding enters the accumulator, and each sets exactly one
number and only the function slot. -/
theorem c5_binding_exclusivity (nm : String) (v : Option String)
    (ops : List BuilderOp) :
    ∀ b ∈ (snapshotValue (MidiMapBuilder.build (applyOps (MidiMapBuilder.new nm v) ops)).1
        (MidiMapBuilder.build (applyOps (MidiMapBuilder.new nm v) ops)).2).bindings,
      BindingExclusive b := by
  intro b hb
  have h : HeapAll BindingExclusive
      (applyOp (applyOps (MidiMapBuilder.new nm v) ops) .build) :=
    heapAll_applyOp mkCCBinding_exclusive mkNoteBinding_exclusive
      (heapAll_applyOps mkCCBinding_exclusive mkNoteBinding_exclusive ops _
        (heapAll_new _ nm v)) .build
  exact heapAll_readArray h _ b hb

/-- C5 witness: a fresh builder, one appended continuous-controller
binding, and the built snapshot. -/
theorem c5_binding_exclusivity_witness :
    mkCCBinding ⟨1, "track-set-gain", none, none, none, none, 7⟩ ∈
      (snapshotValue
        (MidiMapBuilder.build (applyOps (MidiMapBuilder.new ("m") none)
          [.addCC ⟨1, "track-set-gain", none, none, none, none, 7⟩])).1
        (MidiMapBuilder.build (applyOps (MidiMapBuilder.new ("m") none)
          [.addCC ⟨1, "track-set-gain", none, none, none, none, 7⟩])).2).bindings ∧
    BindingExclusive (mkCCBinding ⟨1, "track-set-gain", none, none, none, none, 7⟩) :=
  ⟨by decide,
   c5_binding_exclusivity ("m") none
     [.addCC ⟨1, "track-set-gain", none, none, none, none, 7⟩]
     (mkCCBinding ⟨1, "track-set-gain", none, none, none, none, 7⟩) (by decide)⟩

/-- C6: the append operations copy exactly the caller-supplied function
string into the binding's function field, and no builder operation ever
writes the uri field, so no binding in a built map carries an addressable
parameter path. -/
theorem c6_no_uri_from_builder :
    (∀ o : CCBindingOptions,
      (mkCCBinding o).function = some o.function ∧ (mkCCBinding o).uri = none) ∧
    (∀ o : NoteBindingOptions,
      (mkNoteBinding o).function = some o.function ∧ (mkNoteBinding o).uri = none) ∧
    ∀ (nm : String) (v : Option String) (ops : List BuilderOp),
      ∀ b ∈ (snapshotValue (MidiMapBuilder.build (applyOps (MidiMapBuilder.new nm v) ops)).1
          (MidiMapBuilder.build (applyOps (MidiMapBuilder.new nm v) ops)).2).bindings,
        b.uri = none := by
  refine ⟨fun o => ⟨rfl, rfl⟩, fun o => ⟨rfl, rfl⟩, ?_⟩
  intro nm v ops b hb
  have h : HeapAll (fun x => x.uri = none)
      (applyOp (applyOps (MidiMapBuilder.new nm v) ops) .build) :=
    @heapAll_applyOp (fun x => x.uri = none) _ (fun _ => rfl) (fun _ => rfl)
      (@heapAll_applyOps (fun x => x.uri = none) (fun _ => rfl) (fun _ => rfl) ops _
        (heapAll_new _ nm v)) .build
  exact heapAll_readArray h _ b hb

/-- C6 witness: the theorem applied to one appended note binding. -/
theorem c6_no_uri_from_builder_witness :
    mkNoteBinding ⟨1, "transport-stop", none, none, some true, none, 60⟩ ∈
      (snapshotValue
        (MidiMapBuilder.build (applyOps (MidiMapBuilder.new ("m") none)
          [.addNote ⟨1, "transport-stop", none, none, some true, none, 60⟩])).1
        (MidiMapBuilder.build (applyOps (MidiMapBuilder.new ("m") none)
          [.addNote ⟨1, "transport-stop", none, none, some true, none, 60⟩])).2).bindings ∧
    (mkNoteBinding ⟨1, "transport-stop", none, none, some true, none, 60⟩).uri = none :=
  ⟨by decide,
   c6_no_uri_from_builder.2.2 ("m") none
     [.addNote ⟨1, "transport-stop", none, none, some true, none, 60⟩]
     (mkNoteBinding ⟨1, "transport-stop", none, none, some true, none, 60⟩) (by decide)⟩

/-- Invariant tying a built snapshot's array to its content: the snapshot
index is allocated, the builder appends elsewhere, and the stored content
is unchanged. -/
def SnapInv (r : Nat) (content : List ArdourBinding) (c : BuilderState) : Prop :=
  r < c.arrays.length ∧ c.ref ≠ r ∧ readArray c r = content

theorem snapInv_pushBinding {r : Nat} {k : List ArdourBinding} {c : BuilderState}
    (h : SnapInv r k c) (b : ArdourBinding) : SnapInv r k (pushBinding c b) := by
  obtain ⟨h1, h2, h3⟩ := h
  refine ⟨by simpa [pushBinding] using h1, h2, ?_⟩
  unfold readArray pushBinding at *
  simp only [List.getElem?_set_ne h2]
  exact h3

theorem snapInv_foldl {α : Type} {r : Nat} {k : List ArdourBinding}
    (f : BuilderState → α → BuilderState)
    (hf : ∀ c a, SnapInv r k c → SnapInv r k (f c a)) :
    ∀ (l : List α) (c : BuilderState), SnapInv r k c → SnapInv r k (l.foldl f c) := by
  intro l
  induction l with
  | nil => intro c h; exact h
  | cons a t ih => intro c h; exact ih (f c a) (hf c a h)

theorem snapInv_append_array {r : Nat} {k : List ArdourBinding} {c : BuilderState}
    (h : SnapInv r k c) (arr : List ArdourBinding) :
    r < (c.arrays ++ [arr]).length ∧ readArray ⟨c.arrays ++ [arr], c.ref, c.name, c.version⟩ r = k := by
  obtain ⟨h1, _, h3⟩ := h
  constructor
  · simp only [List.length_append, List.length_cons, List.length_nil]
    omega
  · unfold readArray at *
    simpa [List.getElem?_append_left h1] using h3

theorem snapInv_applyOp {r : Nat} {k : List ArdourBinding} {c : BuilderState}
    (h : SnapInv r k c) (op : BuilderOp) : SnapInv r k (applyOp c op) := by
  cases op with
  | addCC o => exact snapInv_pushBinding h _
  | addNote o => exact snapInv_pushBinding h _
  | addTransport ch n =>
    exact snapInv_foldl _ (fun _ _ h2 => snapInv_pushBinding h2 _) _ _ h
  | addChannelStrip ch st b =>
    exact snapInv_foldl _ (fun _ _ h2 => snapInv_pushBinding h2 _) _ _
      (snapInv_foldl _ (fun _ _ h2 => snapInv_pushBinding h2 _) _ _ h)
  | clear =>
    obtain ⟨h1, h2, h3⟩ := h
    refine ⟨?_, ?_, ?_⟩
    · show r < (c.arrays ++ [[]]).length
      simp only [List.length_append, List.length_cons, List.length_nil]
      omega
    · show c.arrays.length ≠ r
      omega
    · show readArray ⟨c.arrays ++ [[]], c.arrays.length, c.name, c.version⟩ r = k
      unfold readArray at h3 ⊢
      simp only
      rw [List.getElem?_append_left h1]
      exact h3
  | build =>
    obtain ⟨h1, h2, h3⟩ := h
    refine ⟨?_, h2, ?_⟩
    · show r < (c.arrays ++ [readArray c c.ref]).length
      simp only [List.length_append, List.length_cons, List.length_nil]
      omega
    · show readArray ⟨c.arrays ++ [readArray c c.ref], c.ref, c.name, c.version⟩ r = k
      unfold readArray at h3 ⊢
      simp only
      rw [List.getElem?_append_left h1]
      exact h3

theorem snapInv_applyOps {r : Nat} {k : List ArdourBinding} {c : BuilderState}
    (h : SnapInv r k c) (ops : List BuilderOp) : SnapInv r k (applyOps c ops) :=
  snapInv_foldl applyOp (fun _ op h2 => snapInv_applyOp h2 op) ops c h

/-- C9: build returns a snapshot of the accumulator taken at the moment of
the call, and every later builder operation (appends, bulk operations,
clear, and further builds) leaves the snapshot's name, version and binding
sequence unchanged. -/
theorem c9_snapshot_independence (s : BuilderState) (hwf : s.ref < s.arrays.length)
    (ops : List BuilderOp) :
    snapshotValue (MidiMapBuilder.build s).1 (MidiMapBuilder.build s).2 =
      ⟨s.name, s.version, none, readArray s s.ref⟩ ∧
    snapshotValue (applyOps (MidiMapBuilder.build s).1 ops) (MidiMapBuilder.build s).2 =
      snapshotValue (MidiMapBuilder.build s).1 (MidiMapBuilder.build s).2 := by
  have hinit : SnapInv s.arrays.length (readArray s s.ref) (MidiMapBuilder.build s).1 := by
    refine ⟨?_, Nat.ne_of_lt hwf, ?_⟩
    · show s.arrays.length < (s.arrays ++ [readArray s s.ref]).length
      simp only [List.length_append, List.length_cons, List.length_nil]
      omega
    · show readArray ⟨s.arrays ++ [readArray s s.ref], s.ref, s.name, s.version⟩
        s.arrays.length = readArray s s.ref
      unfold readArray
      simp only
      rw [List.getElem?_concat_length]
      rfl
  have hcopy : readArray (MidiMapBuilder.build s).1 (MidiMapBuilder.build s).2.ref =
      readArray s s.ref := hinit.2.2
  have hsnap : snapshotValue (MidiMapBuilder.build s).1 (MidiMapBuilder.build s).2 =
      ⟨s.name, s.version, none, readArray s s.ref⟩ := by
    unfold snapshotValue
    rw [hcopy]
    rfl
  refine ⟨hsnap, ?_⟩
  have hfin := snapInv_applyOps hinit ops
  have hval : readArray (applyOps (MidiMapBuilder.build s).1 ops)
      (MidiMapBuilder.build s).2.ref = readArray s s.ref := hfin.2.2
  unfold snapshotValue
  rw [hval, hcopy]

/-- C9 witness: a fresh builder, built at once, then mutated by an append
and a clear; the snapshot value is unchanged. -/
theorem c9_snapshot_independence_witness :
    (MidiMapBuilder.new ("m") none).ref <
      (MidiMapBuilder.new ("m") none).arrays.length ∧
    (snapshotValue (MidiMapBuilder.build (MidiMapBuilder.new ("m") none)).1
        (MidiMapBuilder.build (MidiMapBuilder.new ("m") none)).2 =
      ⟨(MidiMapBuilder.new ("m") none).name, (MidiMapBuilder.new ("m") none).version,
        none, readArray (MidiMapBuilder.new ("m") none) (MidiMapBuilder.new ("m") none).ref⟩ ∧
     snapshotValue
        (applyOps (MidiMapBuilder.build (MidiMapBuilder.new ("m") none)).1
          [.addCC ⟨1, "track-set-gain", none, none, none, none, 7⟩, .clear])
        (MidiMapBuilder.build (MidiMapBuilder.new ("m") none)).2 =
      snapshotValue (MidiMapBuilder.build (MidiMapBuilder.new ("m") none)).1
        (MidiMapBuilder.build (MidiMapBuilder.new ("m") none)).2) :=
  ⟨by decide,
   c9_snapshot_independence (MidiMapBuilder.new ("m") none) (by decide)
     [.addCC ⟨1, "track-set-gain", none, none, none, none, 7⟩, .clear]⟩

/-- JavaScript template rendering of an integral number value, as used for
the numeric attributes of the serializer and the builder's strip indices. -/
def jsNumToString : Int → String
  | .ofNat m => Nat.repr m
  | .negSucc m => "-" ++ Nat.repr (m + 1)

/-- One global single-character replacement pass, the List model of one
text.replace(/c/g, rep) call of escapeXML. -/
def escPass (t : Char) (rep : List Char) : List Char → List Char
  | [] => []
  | c :: cs => (if c = t then rep else [c]) ++ escPass t rep cs

/-- ArdourXMLSerializer.escapeXML: the five sequential global replacement
passes of the source, in source order (ampersand first). -/
def escapeXML (s : String) : String :=
  ⟨escPass '\'' ['&', 'a', 'p', 'o', 's', ';']
    (escPass '"' ['&', 'q', 'u', 'o', 't', ';']
      (escPass '>' ['&', 'g', 't', ';']
        (escPass '<' ['&', 'l', 't', ';']
          (escPass '&' ['&', 'a', 'm', 'p', ';'] s.data))))⟩

/-- Specification-side characterwise escape: each of the five reserved
markup characters becomes its standard named character reference and every
other character is kept. -/
def escChar (c : Char) : List Char :=
  if c = '&' then ['&', 'a', 'm', 'p', ';']
  else if c = '<' then ['&', 'l', 't', ';']
  else if c = '>' then ['&', 'g', 't', ';']
  else if c = '"' then ['&', 'q', 'u', 'o', 't', ';']
  else if c = '\'' then ['&', 'a', 'p', 'o', 's', ';']
  else [c]

/-- Characterwise escape of a whole character list. -/
def escSpec : List Char → List Char
  | [] => []
  | c :: cs => escChar c ++ escSpec cs

/-- Scanner for escaped text: no literal angle bracket or quote character
anywhere, and every ampersand begins one of the five standard named
character references. -/
def wellEscaped : List Char → Bool
  | [] => true
  | c :: rest =>
    if c = '&' then
      (List.isPrefixOf ['a', 'm', 'p', ';'] rest ||
       List.isPrefixOf ['l', 't', ';'] rest ||
       List.isPrefixOf ['g', 't', ';'] rest ||
       List.isPrefixOf ['q', 'u', 'o', 't', ';'] rest ||
       List.isPrefixOf ['a', 'p', 'o', 's', ';'] rest) && wellEscaped rest
    else
      !(c = '<' || c = '>' || c = '"' || c = '\'') && wellEscaped rest

theorem escPass_append (t : Char) (rep : List Char) (a b : List Char) :
    escPass t rep (a ++ b) = escPass t rep a ++ escPass t rep b := by
  induction a with
  | nil => rfl
  | cons c cs ih => simp [escPass, ih]

/-- The five passes applied in sequence, on character lists. -/
def escAll (l : List Char) : List Char :=
  escPass '\'' ['&', 'a', 'p', 'o', 's', ';']
    (escPass '"' ['&', 'q', 'u', 'o', 't', ';']
      (escPass '>' ['&', 'g', 't', ';']
        (escPass '<' ['&', 'l', 't', ';']
          (escPass '&' ['&', 'a', 'm', 'p', ';'] l))))

theorem escAll_append (a b : List Char) :
    escAll (a ++ b) = escAll a ++ escAll b := by
  simp [escAll, escPass_append]

theorem escAll_single (c : Char) : escAll [c] = escChar c := by
  by_cases h1 : c = '&'
  · subst h1; rfl
  · by_cases h2 : c = '<'
    · subst h2; rfl
    · by_cases h3 : c = '>'
      · subst h3; rfl
      · by_cases h4 : c = '"'
        · subst h4; rfl
        · by_cases h5 : c = '\''
          · subst h5; rfl
          · simp [escAll, escPass, escChar, h1, h2, h3, h4, h5]

theorem escAll_eq_escSpec (l : List Char) : escAll l = escSpec l := by
  induction l with
  | nil => rfl
  | cons c cs ih =>
    have : (c :: cs) = [c] ++ cs := rfl
    rw [this, escAll_append, escAll_single, ih]
    rfl

theorem wellEscaped_escChar (c : Char) (rest : List Char)
    (h : wellEscaped rest = true) : wellEscaped (escChar c ++ rest) = true := by
  by_cases h1 : c = '&'
  · subst h1; simp [escChar, wellEscaped, List.isPrefixOf, h]
  · by_cases h2 : c = '<'
    · subst h2; simp [escChar, wellEscaped, List.isPrefixOf, h]
    · by_cases h3 : c = '>'
      · subst h3; simp [escChar, wellEscaped, List.isPrefixOf, h]
      · by_cases h4 : c = '"'
        · subst h4; simp [escChar, wellEscaped, List.isPrefixOf, h]
        · by_cases h5 : c = '\''
          · subst h5; simp [escChar, wellEscaped, List.isPrefixOf, h]
          · simp [escChar, wellEscaped, h1, h2, h3, h4, h5, h]

theorem wellEscaped_escSpec (l : List Char) : wellEscaped (escSpec l) = true := by
  induction l with
  | nil => rfl
  | cons c cs ih => exact wellEscaped_escChar c (escSpec cs) ih

theorem escapeXML_eq_escSpec (s : String) : (escapeXML s).data = escSpec s.data :=
  escAll_eq_escSpec s.data

theorem wellEscaped_escapeXML (s : String) : wellEscaped (escapeXML s).data = true := by
  rw [escapeXML_eq_escSpec]
  exact wellEscaped_escSpec s.data

/-- Characters that are not reserved markup characters. -/
def SafeChar (c : Char) : Prop :=
  c ≠ '&' ∧ c ≠ '<' ∧ c ≠ '>' ∧ c ≠ '"' ∧ c ≠ '\''

theorem wellEscaped_of_safe (l : List Char) (h : ∀ c ∈ l, SafeChar c) :
    wellEscaped l = true := by
  induction l with
  | nil => rfl
  | cons c cs ih =>
    obtain ⟨s1, s2, s3, s4, s5⟩ := h c (by simp)
    have hrest := ih (fun x hx => h x (by simp [hx]))
    simp [wellEscaped, s1, s2, s3, s4, s5, hrest]

instance (c : Char) : Decidable (SafeChar c) := by
  unfold SafeChar; infer_instance

theorem safe_ite {p : Prop} [Decidable p] {a b : Char}
    (ha : SafeChar a) (hb : SafeChar b) : SafeChar (if p then a else b) := by
  by_cases h : p
  · simpa [h] using ha
  · simpa [h] using hb

theorem digitChar_safe (n : Nat) : SafeChar (Nat.digitChar n) := by
  unfold Nat.digitChar
  repeat' apply safe_ite
  all_goals decide

theorem toDigitsCore_safe (fuel : Nat) :
    ∀ (n : Nat) (ds : List Char), (∀ c ∈ ds, SafeChar c) →
      ∀ c ∈ Nat.toDigitsCore 10 fuel n ds, SafeChar c := by
  induction fuel with
  | zero => intro n ds h c hc; exact h c hc
  | succ f ih =>
    intro n ds h c hc
    unfold Nat.toDigitsCore at hc
    have hcons : ∀ x ∈ Nat.digitChar (n % 10) :: ds, SafeChar x := by
      intro x hx
      rcases List.mem_cons.1 hx with he | hm
      · exact he ▸ digitChar_safe (n % 10)
      · exact h x hm
    by_cases hz : n / 10 = 0
    · rw [if_pos hz] at hc
      exact hcons c hc
    · rw [if_neg hz] at hc
      exact ih (n / 10) _ hcons c hc

theorem natRepr_safe (n : Nat) : ∀ c ∈ (Nat.repr n).data, SafeChar c := by
  intro c hc
  exact toDigitsCore_safe (n + 1) n [] (by simp) c hc

theorem jsNumToString_safe (i : Int) : ∀ c ∈ (jsNumToString i).data, SafeChar c := by
  cases i with
  | ofNat m => exact natRepr_safe m
  | negSucc m =>
    intro c hc
    simp only [jsNumToString, String.data_append] at hc
    rcases List.mem_append.1 hc with hm | hm
    · simp at hm; subst hm; decide
    · exact natRepr_safe (m + 1) c hm

/-- A numeric attribute: present exactly when the field is present, the
value rendered as a number, never escaped. -/
def numAttr (k : String) (v : Option Int) : List (String × String) :=
  match v with
  | some n => [(k, jsNumToString n)]
  | none => []

/-- A free-text attribute: present when the field is a non-empty string
(the serializer tests plain truthiness), the value passed through
escapeXML. -/
def escAttr (k : String) (v : Option String) : List (String × String) :=
  match v with
  | some s => if s.isEmpty then [] else [(k, escapeXML s)]
  | none => []

/-- A raw string attribute (the encoder and momentary flags): present when
the field is a non-empty string, emitted without escaping. -/
def rawAttr (k : String) (v : Option String) : List (String × String) :=
  match v with
  | some s => if s.isEmpty then [] else [(k, s)]
  | none => []

/-- Attribute list of ArdourXMLSerializer.serializeBinding, in the fixed
emission order of the source: channel, ctl, note, enc-r, rpn, nrpn,
rpn-14, nrpn-14, function, uri, action, encoder, momentary, threshold. -/
def serializeBindingAttrs (b : ArdourBinding) : List (String × String) :=
  [("channel", jsNumToString b.channel)]
    ++ numAttr ("ctl") b.ctl
    ++ numAttr ("note") b.note
    ++ numAttr ("enc-r") b.encR
    ++ numAttr ("rpn") b.rpn
    ++ numAttr ("nrpn") b.nrpn
    ++ numAttr ("rpn-14") b.rpn14
    ++ numAttr ("nrpn-14") b.nrpn14
    ++ escAttr ("function") b.function
    ++ escAttr ("uri") b.uri
    ++ escAttr ("action") b.action
    ++ rawAttr ("encoder") b.encoder
    ++ rawAttr ("momentary") b.momentary
    ++ numAttr ("threshold") b.threshold

/-- Render one key value pair as a markup attribute. -/
def renderAttr (kv : String × String) : String :=
  kv.1 ++ "=\"" ++ kv.2 ++ "\""

/-- ArdourXMLSerializer.serializeBinding: one self-closing Binding element. -/
def serializeBinding (b : ArdourBinding) : String :=
  "<Binding " ++ String.intercalate (" ") ((serializeBindingAttrs b).map renderAttr) ++ "/>"

/-- ArdourXMLSerializer.serializeDeviceInfoElement. -/
def serializeDeviceInfoElement (d : ArdourDeviceInfo) : String :=
  "<DeviceInfo " ++
    String.intercalate (" ")
      (d.deviceInfo.map (fun kv => kv.1 ++ "=\"" ++ jsNumToString kv.2 ++ "\"")) ++ "/>"

/-- ArdourXMLSerializer.serializeMidiMap with the default two-space indent
and newline separator: prologue, root element carrying the escaped map
name, optional device descriptor, one line per binding in sequence order,
closing root element. -/
def serializeMidiMap (m : ArdourMidiMap) : String :=
  String.intercalate ("\n")
    (["<?xml version=\"1.0\" encoding=\"UTF-8\"?>",
      "<ArdourMIDIBindings version=\"1.0.0\" name=\"" ++ escapeXML m.name ++ "\">"]
      ++ (match m.deviceInfo with
          | some d => [serializeDeviceInfoElement d]
          | none => [])
      ++ m.bindings.map (fun b => "  " ++ serializeBinding b)
      ++ ["</ArdourMIDIBindings>"])

/-- ArdourXMLSerializer.parseMidiMap: the inverse decode is unsupported
and throws unconditionally; the thrown condition is modelled as an Except
error carrying the thrown message. -/
def parseMidiMap (_xml : String) : Except String ArdourMidiMap :=
  .error ("XML parsing not yet implemented")

theorem numAttr_mem {k : String} {v : Option Int} {kv : String × String}
    (h : kv ∈ numAttr k v) : kv.1 = k ∧ ∃ n, kv.2 = jsNumToString n := by
  cases v with
  | none => simp [numAttr] at h
  | some n =>
    simp [numAttr] at h
    exact ⟨by simp [h], n, by simp [h]⟩

theorem escAttr_mem {k : String} {v : Option String} {kv : String × String}
    (h : kv ∈ escAttr k v) : kv.1 = k ∧ ∃ s, kv.2 = escapeXML s := by
  cases v with
  | none => simp [escAttr] at h
  | some s =>
    simp only [escAttr] at h
    split at h
    · simp at h
    · simp at h
      exact ⟨by simp [h], s, by simp [h]⟩

theorem rawAttr_mem {k : String} {v : Option String} {kv : String × String}
    (h : kv ∈ rawAttr k v) : kv.1 = k := by
  cases v with
  | none => simp [rawAttr] at h
  | some s =>
    simp only [rawAttr] at h
    split at h
    · simp at h
    · simp at h; simp [h]

/-- C7: escaping correctness of the serializer.  First, escapeXML replaces
every occurrence of each of the five reserved markup characters with its
standard named character reference and keeps all other characters.  Second,
every escaped result re-scans clean: it holds no literal angle bracket or
quote, and every ampersand starts a named reference.  Third, every
attribute value serializeBinding emits other than the raw encoder and
momentary flags re-scans clean, free-text values being escaped and numeric
values being bare digit strings.  Fourth, the channel attribute is emitted
as the unescaped number rendering.  Fifth, a concrete name holding the
three characters of the scenario renders with all three escaped. -/
theorem c7_escaping_correctness :
    (∀ s : String, (escapeXML s).data = escSpec s.data) ∧
    (∀ s : String, wellEscaped (escapeXML s).data = true) ∧
    (∀ b : ArdourBinding, ∀ kv ∈ serializeBindingAttrs b,
      kv.1 ≠ "encoder" → kv.1 ≠ "momentary" → wellEscaped kv.2.data = true) ∧
    (∀ b : ArdourBinding, ("channel", jsNumToString b.channel) ∈ serializeBindingAttrs b) ∧
    escapeXML ("Pro<Q> & \"Tone\"") = "Pro&lt;Q&gt; &amp; &quot;Tone&quot;" := by
  refine ⟨escapeXML_eq_escSpec, wellEscaped_escapeXML, ?_, ?_, by rfl⟩
  · intro b kv hkv hk1 hk2
    have hnum : ∀ n : Int, wellEscaped (jsNumToString n).data = true := fun n =>
      wellEscaped_of_safe _ (jsNumToString_safe n)
    simp only [serializeBindingAttrs, List.append_assoc, List.mem_append,
      List.mem_singleton] at hkv
    rcases hkv with h | h | h | h | h | h | h | h | h | h | h | h | h | h
    · rw [h]; exact hnum b.channel
    · obtain ⟨-, n, hn⟩ := numAttr_mem h; rw [hn]; exact hnum n
    · obtain ⟨-, n, hn⟩ := numAttr_mem h; rw [hn]; exact hnum n
    · obtain ⟨-, n, hn⟩ := numAttr_mem h; rw [hn]; exact hnum n
    · obtain ⟨-, n, hn⟩ := numAttr_mem h; rw [hn]; exact hnum n
    · obtain ⟨-, n, hn⟩ := numAttr_mem h; rw [hn]; exact hnum n
    · obtain ⟨-, n, hn⟩ := numAttr_mem h; rw [hn]; exact hnum n
    · obtain ⟨-, n, hn⟩ := numAttr_mem h; rw [hn]; exact hnum n
    · obtain ⟨-, s, hs⟩ := escAttr_mem h; rw [hs]; exact wellEscaped_escapeXML s
    · obtain ⟨-, s, hs⟩ := escAttr_mem h; rw [hs]; exact wellEscaped_escapeXML s
    · obtain ⟨-, s, hs⟩ := escAttr_mem h; rw [hs]; exact wellEscaped_escapeXML s
    · exact absurd (rawAttr_mem h) hk1
    · exact absurd (rawAttr_mem h) hk2
    · obtain ⟨-, n, hn⟩ := numAttr_mem h; rw [hn]; exact hnum n
  · intro b
    simp [serializeBindingAttrs]

/-- C7 witness: the attribute clause applied to a concrete binding at its
channel attribute. -/
theorem c7_escaping_correctness_witness :
    (("channel", jsNumToString 1) ∈ serializeBindingAttrs
      ⟨1, some 7, none, none, none, none, none, none, some ("track-set-gain"),
        none, none, none, none, none⟩ ∧
      ("channel" : String) ≠ "encoder" ∧ ("channel" : String) ≠ "momentary") ∧
    wellEscaped (jsNumToString 1).data = true :=
  ⟨⟨by decide, by decide, by decide⟩,
   c7_escaping_correctness.2.2.1
     ⟨1, some 7, none, none, none, none, none, none, some ("track-set-gain"),
       none, none, none, none, none⟩
     ("channel", jsNumToString 1) (by decide) (by decide) (by decide)⟩

/-- C10: the inverse decode of the target format is unsupported: for every
input text, parseMidiMap fails with the fixed not-implemented condition and
never returns a target map. -/
theorem c10_parse_unsupported (xml : String) :
    parseMidiMap xml = .error ("XML parsing not yet implemented") ∧
    ∀ m : ArdourMidiMap, parseMidiMap xml ≠ .ok m := by
  exact ⟨rfl, fun m h => by simp [parseMidiMap] at h⟩

/-- One schema violation issue: the field path from the document root, a
message, and a machine readable code (the zod issue shape consumed by the
parser module). -/
structure ZodIssue where
  path : List String
  message : String
  code : String
deriving DecidableEq

/-- Result of one schema parse step: either a value or the collected list
of issues. -/
abbrev PR (α : Type) := Except (List ZodIssue) α

/-- Error-accumulating application: both sides are evaluated and their
issue lists concatenated, mirroring zod's collection of every independent
violation in one pass. -/
def zAp {α β : Type} : PR (α → β) → PR α → PR β
  | .ok f, .ok a => .ok (f a)
  | .error e1, .error e2 => .error (e1 ++ e2)
  | .error e1, .ok _ => .error e1
  | .ok _, .error e2 => .error e2

/-- Object field lookup (first occurrence wins, as in a decoded document
object). -/
def getF (fields : List (String × Json)) (k : String) : Option Json :=
  (fields.find? (fun p => p.1 == k)).map (fun p => p.2)

/-- Parse a required string value (z.string()). -/
def jStr (p : List String) : Json → PR String
  | .str s => .ok s
  | _ => .error [⟨p, "Expected string", "invalid_type"⟩]

/-- Parse a boolean value (z.boolean()). -/
def jBool (p : List String) : Json → PR Bool
  | .bool b => .ok b
  | _ => .error [⟨p, "Expected boolean", "invalid_type"⟩]

/-- Parse a number value (z.number()). -/
def jNum (p : List String) : Json → PR Rat
  | .num q => .ok q
  | _ => .error [⟨p, "Expected number", "invalid_type"⟩]

/-- Parse a bounded number (z.number().min(lo).max(hi)). -/
def jNumRange (lo hi : Rat) (p : List String) : Json → PR Rat
  | .num q =>
    if q < lo then .error [⟨p, "Too small", "too_small"⟩]
    else if hi < q then .error [⟨p, "Too big", "too_big"⟩]
    else .ok q
  | _ => .error [⟨p, "Expected number", "invalid_type"⟩]

/-- Parse an enumerated string (z.enum([...])), through the given decoder. -/
def jEnum {α : Type} (dec : String → Option α) (p : List String) : Json → PR α
  | .str s =>
    match dec s with
    | some a => .ok a
    | none => .error [⟨p, "Invalid enum value", "invalid_enum_value"⟩]
  | _ => .error [⟨p, "Expected string", "invalid_type"⟩]

/-- A required field: absence is an invalid_type issue at the field path. -/
def pReq {α : Type} (p : List String) (f : Json → PR α) : Option Json → PR α
  | some v => f v
  | none => .error [⟨p, "Required", "invalid_type"⟩]

/-- An optional field (.optional()): absence parses to none. -/
def pOpt {α : Type} (f : Json → PR α) : Option Json → PR (Option α)
  | some v => (f v).map some
  | none => .ok none

/-- An optional field with a default (.optional().default(d)). -/
def pDefault {α : Type} (f : Json → PR α) (d : α) : Option Json → PR α
  | some v => f v
  | none => .ok d

/-- Parse the elements of an array, issues carrying the element index on
the path. -/
def pElems {α : Type} (f : List String → Json → PR α) (p : List String) (i : Nat) :
    List Json → PR (List α)
  | [] => .ok []
  | x :: xs => zAp (zAp (.ok List.cons) (f (p ++ [Nat.repr i]) x)) (pElems f p (i + 1) xs)

/-- Parse an array value (z.array(...)). -/
def jArr {α : Type} (f : List String → Json → PR α) (p : List String) : Json → PR (List α)
  | .arr xs => pElems f p 0 xs
  | _ => .error [⟨p, "Expected array", "invalid_type"⟩]

/-- Parse an object value, handing the field list to the continuation. -/
def jObj {α : Type} (p : List String) (f : List (String × Json) → PR α) : Json → PR α
  | .obj fs => f fs
  | _ => .error [⟨p, "Expected object", "invalid_type"⟩]

/-- Required string field. -/
def fStr (p : List String) (k : String) (fs : List (String × Json)) : PR String :=
  pReq (p ++ [k]) (jStr (p ++ [k])) (getF fs k)

/-- Optional string field. -/
def fOptStr (p : List String) (k : String) (fs : List (String × Json)) : PR (Option String) :=
  pOpt (jStr (p ++ [k])) (getF fs k)

/-- Required number field. -/
def fNum (p : List String) (k : String) (fs : List (String × Json)) : PR Rat :=
  pReq (p ++ [k]) (jNum (p ++ [k])) (getF fs k)

/-- Optional number field. -/
def fOptNum (p : List String) (k : String) (fs : List (String × Json)) : PR (Option Rat) :=
  pOpt (jNum (p ++ [k])) (getF fs k)

/-- Optional bounded number field. -/
def fOptNumRange (lo hi : Rat) (p : List String) (k : String)
    (fs : List (String × Json)) : PR (Option Rat) :=
  pOpt (jNumRange lo hi (p ++ [k])) (getF fs k)

/-- Optional boolean field. -/
def fOptBool (p : List String) (k : String) (fs : List (String × Json)) : PR (Option Bool) :=
  pOpt (jBool (p ++ [k])) (getF fs k)

/-- Boolean field with default. -/
def fBoolDefault (d : Bool) (p : List String) (k : String)
    (fs : List (String × Json)) : PR Bool :=
  pDefault (jBool (p ++ [k])) d (getF fs k)

/-- Required enumerated field. -/
def fEnum {α : Type} (dec : String → Option α) (p : List String) (k : String)
    (fs : List (String × Json)) : PR α :=
  pReq (p ++ [k]) (jEnum dec (p ++ [k])) (getF fs k)

/-- Optional enumerated field. -/
def fOptEnum {α : Type} (dec : String → Option α) (p : List String) (k : String)
    (fs : List (String × Json)) : PR (Option α) :=
  pOpt (jEnum dec (p ++ [k])) (getF fs k)

/-- Required nested object field. -/
def fSub {α : Type} (sub : List String → Json → PR α) (p : List String) (k : String)
    (fs : List (String × Json)) : PR α :=
  pReq (p ++ [k]) (sub (p ++ [k])) (getF fs k)

/-- Optional nested object field. -/
def fOptSub {α : Type} (sub : List String → Json → PR α) (p : List String) (k : String)
    (fs : List (String × Json)) : PR (Option α) :=
  pOpt (sub (p ++ [k])) (getF fs k)

/-- Optional array-of-strings field. -/
def fOptStrArr (p : List String) (k : String) (fs : List (String × Json)) :
    PR (Option (List String)) :=
  pOpt (jArr (fun p2 => jStr p2) (p ++ [k])) (getF fs k)

/-- Optional array-of-numbers field. -/
def fOptNumArr (p : List String) (k : String) (fs : List (String × Json)) :
    PR (Option (List Rat)) :=
  pOpt (jArr (fun p2 => jNum p2) (p ++ [k])) (getF fs k)

/-- ValueRangeSchema. -/
def parseValueRange (p : List String) (j : Json) : PR ValueRange :=
  jObj p (fun fs =>
    zAp (zAp (zAp (.ok ValueRange.mk)
      (fNum p ("min") fs))
      (fNum p ("max") fs))
      (fOptNum p ("default") fs)) j

/-- InputBehaviorSchema. -/
def parseInputBehavior (p : List String) (j : Json) : PR InputBehavior :=
  jObj p (fun fs =>
    zAp (zAp (zAp (zAp (zAp (.ok InputBehavior.mk)
      (fOptEnum InputMode.ofStr p ("mode") fs))
      (fOptNumRange 0 1 p ("sensitivity") fs))
      (fOptNumRange 0 1 p ("deadzone") fs))
      (fOptEnum CurveType.ofStr p ("curve") fs))
      (fOptBool p ("invert") fs)) j

/-- MappingBehaviorSchema. -/
def parseMappingBehavior (p : List String) (j : Json) : PR MappingBehavior :=
  jObj p (fun fs =>
    zAp (zAp (zAp (zAp (zAp (.ok MappingBehavior.mk)
      (fOptEnum CurveType.ofStr p ("scaling") fs))
      (fOptNumArr p ("curve") fs))
      (fOptNum p ("quantize") fs))
      (fOptNumRange 0 1 p ("smoothing") fs))
      (fOptBool p ("bipolar") fs)) j

/-- MidiInputDefinitionSchema. -/
def parseMidiInput (p : List String) (j : Json) : PR MidiInputDefinition :=
  jObj p (fun fs =>
    zAp (zAp (zAp (zAp (zAp (.ok MidiInputDefinition.mk)
      (fEnum MidiInputType.ofStr p ("type") fs))
      (fOptNumRange 1 16 p ("channel") fs))
      (fOptNumRange 0 127 p ("number") fs))
      (fOptSub parseValueRange p ("range") fs))
      (fOptSub parseInputBehavior p ("behavior") fs)) j

/-- PluginTargetDefinitionSchema. -/
def parsePluginTarget (p : List String) (j : Json) : PR PluginTargetDefinition :=
  jObj p (fun fs =>
    zAp (zAp (zAp (zAp (zAp (zAp (.ok PluginTargetDefinition.mk)
      (fEnum PluginTargetType.ofStr p ("type") fs))
      (fStr p ("identifier") fs))
      (fOptStr p ("name") fs))
      (fOptSub parseValueRange p ("range") fs))
      (fOptStr p ("units") fs))
      (fOptStr p ("category") fs)) j

/-- MidiMappingSchema. -/
def parseMidiMapping (p : List String) (j : Json) : PR MidiMapping :=
  jObj p (fun fs =>
    zAp (zAp (zAp (zAp (zAp (zAp (.ok MidiMapping.mk)
      (fStr p ("id") fs))
      (fOptStr p ("description") fs))
      (fSub parseMidiInput p ("midiInput") fs))
      (fSub parsePluginTarget p ("pluginTarget") fs))
      (fOptSub parseMappingBehavior p ("mapping") fs))
      (fBoolDefault true p ("enabled") fs)) j

/-- MapMetadataSchema. -/
def parseMetadata (p : List String) (j : Json) : PR MapMetadata :=
  jObj p (fun fs =>
    zAp (zAp (zAp (zAp (zAp (zAp (zAp (.ok MapMetadata.mk)
      (fStr p ("name") fs))
      (fStr p ("version") fs))
      (fOptStr p ("description") fs))
      (fOptStr p ("author") fs))
      (fOptStr p ("created") fs))
      (fOptStr p ("updated") fs))
      (fOptStrArr p ("tags") fs)) j

/-- ControllerDefinitionSchema. -/
def parseController (p : List String) (j : Json) : PR ControllerDefinition :=
  jObj p (fun fs =>
    zAp (zAp (zAp (zAp (zAp (zAp (.ok ControllerDefinition.mk)
      (fStr p ("manufacturer") fs))
      (fStr p ("model") fs))
      (fOptStr p ("version") fs))
      (fOptStr p ("description") fs))
      (fOptNumRange 1 16 p ("midiChannel") fs))
      (fOptStr p ("notes") fs)) j

/-- PluginDefinitionSchema. -/
def parsePlugin (p : List String) (j : Json) : PR PluginDefinition :=
  jObj p (fun fs =>
    zAp (zAp (zAp (zAp (zAp (zAp (.ok PluginDefinition.mk)
      (fStr p ("manufacturer") fs))
      (fStr p ("name") fs))
      (fOptStr p ("version") fs))
      (fOptEnum PluginFormat.ofStr p ("format") fs))
      (fOptStr p ("description") fs))
      (fOptStr p ("notes") fs)) j

/-- CanonicalMidiMapSchema.safeParse: the root object with its four
required members. -/
def safeParse (j : Json) : PR CanonicalMidiMap :=
  jObj [] (fun fs =>
    zAp (zAp (zAp (zAp (.ok CanonicalMidiMap.mk)
      (fSub parseMetadata [] ("metadata") fs))
      (fSub parseController [] ("controller") fs))
      (fSub parsePlugin [] ("plugin") fs))
      (pReq ["mappings"] (jArr parseMidiMapping ["mappings"]) (getF fs ("mappings")))) j

/-- Object entry for an optional field: emitted only when present (the
text encoders drop absent members). -/
def optEntry (k : String) (v : Option Json) : List (String × Json) :=
  match v with
  | some x => [(k, x)]
  | none => []

/-- Document tree of a value range. -/
def ValueRange.toJson (r : ValueRange) : Json :=
  .obj ([("min", .num r.min), ("max", .num r.max)]
    ++ optEntry ("default") (r.default.map .num))

/-- Document tree of an input behavior descriptor. -/
def InputBehavior.toJson (b : InputBehavior) : Json :=
  .obj (optEntry ("mode") (b.mode.map (fun m => .str m.toStr))
    ++ optEntry ("sensitivity") (b.sensitivity.map .num)
    ++ optEntry ("deadzone") (b.deadzone.map .num)
    ++ optEntry ("curve") (b.curve.map (fun c => .str c.toStr))
    ++ optEntry ("invert") (b.invert.map .bool))

/-- Document tree of a mapping behavior descriptor. -/
def MappingBehavior.toJson (b : MappingBehavior) : Json :=
  .obj (optEntry ("scaling") (b.scaling.map (fun c => .str c.toStr))
    ++ optEntry ("curve") (b.curve.map (fun l => .arr (l.map .num)))
    ++ optEntry ("quantize") (b.quantize.map .num)
    ++ optEntry ("smoothing") (b.smoothing.map .num)
    ++ optEntry ("bipolar") (b.bipolar.map .bool))

/-- Document tree of a MIDI input definition. -/
def MidiInputDefinition.toJson (d : MidiInputDefinition) : Json :=
  .obj ([("type", .str d.type.toStr)]
    ++ optEntry ("channel") (d.channel.map .num)
    ++ optEntry ("number") (d.number.map .num)
    ++ optEntry ("range") (d.range.map ValueRange.toJson)
    ++ optEntry ("behavior") (d.behavior.map InputBehavior.toJson))

/-- Document tree of a plugin target definition. -/
def PluginTargetDefinition.toJson (d : PluginTargetDefinition) : Json :=
  .obj ([("type", .str d.type.toStr), ("identifier", .str d.identifier)]
    ++ optEntry ("name") (d.name.map .str)
    ++ optEntry ("range") (d.range.map ValueRange.toJson)
    ++ optEntry ("units") (d.units.map .str)
    ++ optEntry ("category") (d.category.map .str))

/-- Document tree of one mapping entry; the schema-defaulted enabled flag
is always present on the typed map, so it is always emitted. -/
def MidiMapping.toJson (m : MidiMapping) : Json :=
  .obj ([("id", .str m.id)]
    ++ optEntry ("description") (m.description.map .str)
    ++ [("midiInput", m.midiInput.toJson), ("pluginTarget", m.pluginTarget.toJson)]
    ++ optEntry ("mapping") (m.mapping.map MappingBehavior.toJson)
    ++ [("enabled", .bool m.enabled)])

/-- Document tree of the map metadata. -/
def MapMetadata.toJson (m : MapMetadata) : Json :=
  .obj ([("name", .str m.name), ("version", .str m.version)]
    ++ optEntry ("description") (m.description.map .str)
    ++ optEntry ("author") (m.author.map .str)
    ++ optEntry ("created") (m.created.map .str)
    ++ optEntry ("updated") (m.updated.map .str)
    ++ optEntry ("tags") (m.tags.map (fun l => .arr (l.map .str))))

/-- Document tree of the controller descriptor. -/
def ControllerDefinition.toJson (c : ControllerDefinition) : Json :=
  .obj ([("manufacturer", .str c.manufacturer), ("model", .str c.model)]
    ++ optEntry ("version") (c.version.map .str)
    ++ optEntry ("description") (c.description.map .str)
    ++ optEntry ("midiChannel") (c.midiChannel.map .num)
    ++ optEntry ("notes") (c.notes.map .str))

/-- Document tree of the plugin descriptor. -/
def PluginDefinition.toJson (p : PluginDefinition) : Json :=
  .obj ([("manufacturer", .str p.manufacturer), ("name", .str p.name)]
    ++ optEntry ("version") (p.version.map .str)
    ++ optEntry ("format") (p.format.map (fun f => .str f.toStr))
    ++ optEntry ("description") (p.description.map .str)
    ++ optEntry ("notes") (p.notes.map .str))

/-- Document tree of a whole canonical map. -/
def canonicalToJson (m : CanonicalMidiMap) : Json :=
  .obj [("metadata", m.metadata.toJson), ("controller", m.controller.toJson),
        ("plugin", m.plugin.toJson),
        ("mappings", .arr (m.mappings.map MidiMapping.toJson))]

/-- CanonicalMapParser.serializeToYAML, at document-tree level.  Modelled
from the spec: the external structured-text encoder renders exactly the
in-memory tree of the typed map (indentation and line-width options affect
only whitespace), so the serialized text is modelled by the tree it
decodes back to. -/
def serializeToYAMLValue (m : CanonicalMidiMap) : Json :=
  canonicalToJson m

/-- CanonicalMapParser.serializeToJSON, at document-tree level.  Modelled
from the spec: JSON.stringify emits the tree of the typed map (the pretty
flag affects only whitespace). -/
def serializeToJSONValue (m : CanonicalMidiMap) : Json :=
  canonicalToJson m

theorem getF_nil (k : String) : getF [] k = none := rfl

theorem getF_cons_hit (k : String) (v : Json) (fs : List (String × Json)) :
    getF ((k, v) :: fs) k = some v := by
  unfold getF
  rw [List.find?_cons_of_pos _ (by simp)]
  rfl

theorem getF_cons_skip {k k' : String} (h : ¬(k' = k)) (v : Json)
    (fs : List (String × Json)) : getF ((k', v) :: fs) k = getF fs k := by
  unfold getF
  rw [List.find?_cons_of_neg _ (by simp [h])]

theorem getF_optEntry_self (k : String) (o : Option Json) :
    getF (optEntry k o) k = o := by
  cases o with
  | none => rfl
  | some v => exact getF_cons_hit k v []

theorem getF_optEntry_ne {k k' : String} (h : ¬(k' = k)) (o : Option Json) :
    getF (optEntry k' o) k = none := by
  cases o with
  | none => rfl
  | some v => rw [optEntry, getF_cons_skip h]; rfl

theorem getF_optEntry_skip {k k' : String} (h : ¬(k' = k)) (o : Option Json)
    (rest : List (String × Json)) :
    getF (optEntry k' o ++ rest) k = getF rest k := by
  cases o with
  | none => rfl
  | some v => rw [optEntry, List.singleton_append, getF_cons_skip h]

theorem getF_optEntry_hit (k : String) (o : Option Json)
    {rest : List (String × Json)} (h : getF rest k = none) :
    getF (optEntry k o ++ rest) k = o := by
  cases o with
  | none => simpa [optEntry] using h
  | some v => rw [optEntry, List.singleton_append, getF_cons_hit]

theorem zAp_ok {α β : Type} {f : PR (α → β)} {a : PR α} {c : β}
    (h : zAp f a = .ok c) : ∃ g x, f = .ok g ∧ a = .ok x ∧ c = g x := by
  cases f with
  | ok g =>
    cases a with
    | ok x => simp [zAp] at h; exact ⟨g, x, rfl, rfl, h.symm⟩
    | error e => simp [zAp] at h
  | error e1 => cases a <;> simp [zAp] at h

theorem jStr_inv {p : List String} {s y : String} (h : jStr p (.str s) = .ok y) :
    y = s := by
  simp [jStr] at h; exact h.symm

theorem jBool_inv {p : List String} {b y : Bool} (h : jBool p (.bool b) = .ok y) :
    y = b := by
  simp [jBool] at h; exact h.symm

theorem jNum_inv {p : List String} {q y : Rat} (h : jNum p (.num q) = .ok y) :
    y = q := by
  simp [jNum] at h; exact h.symm

theorem jNumRange_inv {lo hi : Rat} {p : List String} {q y : Rat}
    (h : jNumRange lo hi p (.num q) = .ok y) : y = q := by
  simp only [jNumRange] at h
  split at h
  · simp at h
  · split at h
    · simp at h
    · simp at h; exact h.symm

theorem jEnum_inv {α : Type} {dec : String → Option α} {enc : α → String}
    (hde : ∀ a, dec (enc a) = some a) {p : List String} {a y : α}
    (h : jEnum dec p (.str (enc a)) = .ok y) : y = a := by
  simp only [jEnum, hde a] at h
  simp at h; exact h.symm

theorem pOpt_inv {α : Type} {f : Json → PR α} {enc : α → Json}
    (hinv : ∀ a y, f (enc a) = .ok y → y = a) :
    ∀ {o : Option α} {y : Option α}, pOpt f (o.map enc) = .ok y → y = o := by
  intro o y h
  cases o with
  | none => simp [pOpt] at h; exact h.symm
  | some a =>
    simp only [Option.map_some', pOpt] at h
    cases hf : f (enc a) with
    | error e => rw [hf] at h; simp [Except.map] at h
    | ok b =>
      rw [hf] at h
      simp [Except.map] at h
      rw [← h, hinv a b hf]

theorem pElems_inv {α : Type} {f : List String → Json → PR α} {enc : α → Json}
    (hinv : ∀ p a y, f p (enc a) = .ok y → y = a) :
    ∀ (xs : List α) (p : List String) (i : Nat) (ys : List α),
      pElems f p i (xs.map enc) = .ok ys → ys = xs := by
  intro xs
  induction xs with
  | nil => intro p i ys h; simp [pElems] at h; exact h
  | cons x t ih =>
    intro p i ys h
    simp only [List.map_cons, pElems] at h
    obtain ⟨g1, xrest, hg1, hrest, hy⟩ := zAp_ok h
    obtain ⟨g2, xhd, hg2, hhd, hg1e⟩ := zAp_ok hg1
    have hcons : g2 = List.cons := by
      have := hg2.symm
      simpa using this
    subst hy hg1e hcons
    rw [hinv _ _ _ hhd, ih _ _ _ hrest]

theorem midiInputTypeOfStrToStr (t : MidiInputType) : MidiInputType.ofStr (MidiInputType.toStr t) = some t := by
  cases t <;> rfl

theorem pluginTargetTypeOfStrToStr (t : PluginTargetType) :
    PluginTargetType.ofStr (PluginTargetType.toStr t) = some t := by
  cases t <;> rfl

theorem inputModeOfStrToStr (t : InputMode) : InputMode.ofStr (InputMode.toStr t) = some t := by
  cases t <;> rfl

theorem curveTypeOfStrToStr (t : CurveType) : CurveType.ofStr (CurveType.toStr t) = some t := by
  cases t <;> rfl

theorem pluginFormatOfStrToStr (t : PluginFormat) : PluginFormat.ofStr (PluginFormat.toStr t) = some t := by
  cases t <;> rfl

theorem parseValueRange_inv {p : List String} {r y : ValueRange}
    (h : parseValueRange p (ValueRange.toJson r) = .ok y) : y = r := by
  simp only [parseValueRange, ValueRange.toJson, jObj, fNum, fOptNum,
    List.cons_append, List.nil_append, List.append_assoc, String.reduceEq, not_false_eq_true, ne_eq,
    getF_cons_hit, getF_cons_skip, getF_optEntry_self, getF_optEntry_ne,
    getF_optEntry_skip, getF_optEntry_hit, getF_nil, pReq] at h
  obtain ⟨g1, x1, hg1, hx1, hy⟩ := zAp_ok h
  obtain ⟨g2, x2, hg2, hx2, hg1e⟩ := zAp_ok hg1
  obtain ⟨g3, x3, hg3, hx3, hg2e⟩ := zAp_ok hg2
  have hmk : g3 = ValueRange.mk := by simpa using hg3.symm
  subst hy hg1e hg2e hmk
  rw [jNum_inv hx3, jNum_inv hx2, pOpt_inv (fun a y h2 => jNum_inv h2) hx1]

theorem parseInputBehavior_inv {p : List String} {b y : InputBehavior}
    (h : parseInputBehavior p (InputBehavior.toJson b) = .ok y) : y = b := by
  simp only [parseInputBehavior, InputBehavior.toJson, jObj, fOptEnum, fOptNumRange,
    fOptBool, List.cons_append, List.nil_append, List.append_assoc, String.reduceEq,
    not_false_eq_true, ne_eq, getF_cons_hit, getF_cons_skip, getF_optEntry_self,
    getF_optEntry_ne, getF_optEntry_skip, getF_optEntry_hit, getF_nil, pReq] at h
  obtain ⟨g1, x1, hg1, hx1, hy⟩ := zAp_ok h
  obtain ⟨g2, x2, hg2, hx2, hg1e⟩ := zAp_ok hg1
  obtain ⟨g3, x3, hg3, hx3, hg2e⟩ := zAp_ok hg2
  obtain ⟨g4, x4, hg4, hx4, hg3e⟩ := zAp_ok hg3
  obtain ⟨g5, x5, hg5, hx5, hg4e⟩ := zAp_ok hg4
  have hmk : g5 = InputBehavior.mk := by simpa using hg5.symm
  subst hy hg1e hg2e hg3e hg4e hmk
  rw [pOpt_inv (fun a y h2 => jEnum_inv inputModeOfStrToStr h2) hx5,
    pOpt_inv (fun a y h2 => jNumRange_inv h2) hx4,
    pOpt_inv (fun a y h2 => jNumRange_inv h2) hx3,
    pOpt_inv (fun a y h2 => jEnum_inv curveTypeOfStrToStr h2) hx2,
    pOpt_inv (fun a y h2 => jBool_inv h2) hx1]

theorem parseMappingBehavior_inv {p : List String} {b y : MappingBehavior}
    (h : parseMappingBehavior p (MappingBehavior.toJson b) = .ok y) : y = b := by
  simp only [parseMappingBehavior, MappingBehavior.toJson, jObj, fOptEnum, fOptNumRange,
    fOptBool, fOptNum, fOptNumArr, List.cons_append, List.nil_append, List.append_assoc,
    String.reduceEq, not_false_eq_true, ne_eq, getF_cons_hit, getF_cons_skip,
    getF_optEntry_self, getF_optEntry_ne, getF_optEntry_skip, getF_optEntry_hit,
    getF_nil, pReq] at h
  obtain ⟨g1, x1, hg1, hx1, hy⟩ := zAp_ok h
  obtain ⟨g2, x2, hg2, hx2, hg1e⟩ := zAp_ok hg1
  obtain ⟨g3, x3, hg3, hx3, hg2e⟩ := zAp_ok hg2
  obtain ⟨g4, x4, hg4, hx4, hg3e⟩ := zAp_ok hg3
  obtain ⟨g5, x5, hg5, hx5, hg4e⟩ := zAp_ok hg4
  have hmk : g5 = MappingBehavior.mk := by simpa using hg5.symm
  subst hy hg1e hg2e hg3e hg4e hmk
  rw [pOpt_inv (fun a y h2 => jEnum_inv curveTypeOfStrToStr h2) hx5,
    pOpt_inv (fun a y h2 =>
      pElems_inv (fun p2 b2 y2 h3 => jNum_inv h3) a _ 0 y (by simpa [jArr] using h2)) hx4,
    pOpt_inv (fun a y h2 => jNum_inv h2) hx3,
    pOpt_inv (fun a y h2 => jNumRange_inv h2) hx2,
    pOpt_inv (fun a y h2 => jBool_inv h2) hx1]

theorem parseMidiInput_inv {p : List String} {d y : MidiInputDefinition}
    (h : parseMidiInput p (MidiInputDefinition.toJson d) = .ok y) : y = d := by
  simp only [parseMidiInput, MidiInputDefinition.toJson, jObj, fEnum, fOptNumRange,
    fOptSub, List.cons_append, List.nil_append, List.append_assoc, String.reduceEq,
    not_false_eq_true, ne_eq, getF_cons_hit, getF_cons_skip, getF_optEntry_self,
    getF_optEntry_ne, getF_optEntry_skip, getF_optEntry_hit, getF_nil, pReq] at h
  obtain ⟨g1, x1, hg1, hx1, hy⟩ := zAp_ok h
  obtain ⟨g2, x2, hg2, hx2, hg1e⟩ := zAp_ok hg1
  obtain ⟨g3, x3, hg3, hx3, hg2e⟩ := zAp_ok hg2
  obtain ⟨g4, x4, hg4, hx4, hg3e⟩ := zAp_ok hg3
  obtain ⟨g5, x5, hg5, hx5, hg4e⟩ := zAp_ok hg4
  have hmk : g5 = MidiInputDefinition.mk := by simpa using hg5.symm
  subst hy hg1e hg2e hg3e hg4e hmk
  rw [jEnum_inv midiInputTypeOfStrToStr hx5,
    pOpt_inv (fun a y h2 => jNumRange_inv h2) hx4,
    pOpt_inv (fun a y h2 => jNumRange_inv h2) hx3,
    pOpt_inv (fun a y h2 => parseValueRange_inv h2) hx2,
    pOpt_inv (fun a y h2 => parseInputBehavior_inv h2) hx1]

theorem parsePluginTarget_inv {p : List String} {d y : PluginTargetDefinition}
    (h : parsePluginTarget p (PluginTargetDefinition.toJson d) = .ok y) : y = d := by
  simp only [parsePluginTarget, PluginTargetDefinition.toJson, jObj, fEnum, fStr,
    fOptStr, fOptSub, List.cons_append, List.nil_append, List.append_assoc,
    String.reduceEq, not_false_eq_true, ne_eq, getF_cons_hit, getF_cons_skip,
    getF_optEntry_self, getF_optEntry_ne, getF_optEntry_skip, getF_optEntry_hit,
    getF_nil, pReq] at h
  obtain ⟨g1, x1, hg1, hx1, hy⟩ := zAp_ok h
  obtain ⟨g2, x2, hg2, hx2, hg1e⟩ := zAp_ok hg1
  obtain ⟨g3, x3, hg3, hx3, hg2e⟩ := zAp_ok hg2
  obtain ⟨g4, x4, hg4, hx4, hg3e⟩ := zAp_ok hg3
  obtain ⟨g5, x5, hg5, hx5, hg4e⟩ := zAp_ok hg4
  obtain ⟨g6, x6, hg6, hx6, hg5e⟩ := zAp_ok hg5
  have hmk : g6 = PluginTargetDefinition.mk := by simpa using hg6.symm
  subst hy hg1e hg2e hg3e hg4e hg5e hmk
  rw [jEnum_inv pluginTargetTypeOfStrToStr hx6, jStr_inv hx5,
    pOpt_inv (fun a y h2 => jStr_inv h2) hx4,
    pOpt_inv (fun a y h2 => parseValueRange_inv h2) hx3,
    pOpt_inv (fun a y h2 => jStr_inv h2) hx2,
    pOpt_inv (fun a y h2 => jStr_inv h2) hx1]

theorem parseMidiMapping_inv {p : List String} {m y : MidiMapping}
    (h : parseMidiMapping p (MidiMapping.toJson m) = .ok y) : y = m := by
  simp only [parseMidiMapping, MidiMapping.toJson, jObj, fStr, fOptStr, fSub, fOptSub,
    fBoolDefault, List.cons_append, List.nil_append, List.append_assoc, String.reduceEq,
    not_false_eq_true, ne_eq, getF_cons_hit, getF_cons_skip, getF_optEntry_self,
    getF_optEntry_ne, getF_optEntry_skip, getF_optEntry_hit, getF_nil, pReq,
    pDefault] at h
  obtain ⟨g1, x1, hg1, hx1, hy⟩ := zAp_ok h
  obtain ⟨g2, x2, hg2, hx2, hg1e⟩ := zAp_ok hg1
  obtain ⟨g3, x3, hg3, hx3, hg2e⟩ := zAp_ok hg2
  obtain ⟨g4, x4, hg4, hx4, hg3e⟩ := zAp_ok hg3
  obtain ⟨g5, x5, hg5, hx5, hg4e⟩ := zAp_ok hg4
  obtain ⟨g6, x6, hg6, hx6, hg5e⟩ := zAp_ok hg5
  have hmk : g6 = MidiMapping.mk := by simpa using hg6.symm
  subst hy hg1e hg2e hg3e hg4e hg5e hmk
  rw [jStr_inv hx6,
    pOpt_inv (fun a y h2 => jStr_inv h2) hx5,
    parseMidiInput_inv hx4, parsePluginTarget_inv hx3,
    pOpt_inv (fun a y h2 => parseMappingBehavior_inv h2) hx2,
    jBool_inv hx1]

theorem parseMetadata_inv {p : List String} {m y : MapMetadata}
    (h : parseMetadata p (MapMetadata.toJson m) = .ok y) : y = m := by
  simp only [parseMetadata, MapMetadata.toJson, jObj, fStr, fOptStr, fOptStrArr,
    List.cons_append, List.nil_append, List.append_assoc, String.reduceEq,
    not_false_eq_true, ne_eq, getF_cons_hit, getF_cons_skip, getF_optEntry_self,
    getF_optEntry_ne, getF_optEntry_skip, getF_optEntry_hit, getF_nil, pReq] at h
  obtain ⟨g1, x1, hg1, hx1, hy⟩ := zAp_ok h
  obtain ⟨g2, x2, hg2, hx2, hg1e⟩ := zAp_ok hg1
  obtain ⟨g3, x3, hg3, hx3, hg2e⟩ := zAp_ok hg2
  obtain ⟨g4, x4, hg4, hx4, hg3e⟩ := zAp_ok hg3
  obtain ⟨g5, x5, hg5, hx5, hg4e⟩ := zAp_ok hg4
  obtain ⟨g6, x6, hg6, hx6, hg5e⟩ := zAp_ok hg5
  obtain ⟨g7, x7, hg7, hx7, hg6e⟩ := zAp_ok hg6
  have hmk : g7 = MapMetadata.mk := by simpa using hg7.symm
  subst hy hg1e hg2e hg3e hg4e hg5e hg6e hmk
  rw [jStr_inv hx7, jStr_inv hx6,
    pOpt_inv (fun a y h2 => jStr_inv h2) hx5,
    pOpt_inv (fun a y h2 => jStr_inv h2) hx4,
    pOpt_inv (fun a y h2 => jStr_inv h2) hx3,
    pOpt_inv (fun a y h2 => jStr_inv h2) hx2,
    pOpt_inv (fun a y h2 =>
      pElems_inv (fun p2 b2 y2 h3 => jStr_inv h3) a _ 0 y (by simpa [jArr] using h2)) hx1]

theorem parseController_inv {p : List String} {c y : ControllerDefinition}
    (h : parseController p (ControllerDefinition.toJson c) = .ok y) : y = c := by
  simp only [parseController, ControllerDefinition.toJson, jObj, fStr, fOptStr,
    fOptNumRange, List.cons_append, List.nil_append, List.append_assoc, String.reduceEq,
    not_false_eq_true, ne_eq, getF_cons_hit, getF_cons_skip, getF_optEntry_self,
    getF_optEntry_ne, getF_optEntry_skip, getF_optEntry_hit, getF_nil, pReq] at h
  obtain ⟨g1, x1, hg1, hx1, hy⟩ := zAp_ok h
  obtain ⟨g2, x2, hg2, hx2, hg1e⟩ := zAp_ok hg1
  obtain ⟨g3, x3, hg3, hx3, hg2e⟩ := zAp_ok hg2
  obtain ⟨g4, x4, hg4, hx4, hg3e⟩ := zAp_ok hg3
  obtain ⟨g5, x5, hg5, hx5, hg4e⟩ := zAp_ok hg4
  obtain ⟨g6, x6, hg6, hx6, hg5e⟩ := zAp_ok hg5
  have hmk : g6 = ControllerDefinition.mk := by simpa using hg6.symm
  subst hy hg1e hg2e hg3e hg4e hg5e hmk
  rw [jStr_inv hx6, jStr_inv hx5,
    pOpt_inv (fun a y h2 => jStr_inv h2) hx4,
    pOpt_inv (fun a y h2 => jStr_inv h2) hx3,
    pOpt_inv (fun a y h2 => jNumRange_inv h2) hx2,
    pOpt_inv (fun a y h2 => jStr_inv h2) hx1]

theorem parsePlugin_inv {p : List String} {g y : PluginDefinition}
    (h : parsePlugin p (PluginDefinition.toJson g) = .ok y) : y = g := by
  simp only [parsePlugin, PluginDefinition.toJson, jObj, fStr, fOptStr, fOptEnum,
    List.cons_append, List.nil_append, List.append_assoc, String.reduceEq,
    not_false_eq_true, ne_eq, getF_cons_hit, getF_cons_skip, getF_optEntry_self,
    getF_optEntry_ne, getF_optEntry_skip, getF_optEntry_hit, getF_nil, pReq] at h
  obtain ⟨g1, x1, hg1, hx1, hy⟩ := zAp_ok h
  obtain ⟨g2, x2, hg2, hx2, hg1e⟩ := zAp_ok hg1
  obtain ⟨g3, x3, hg3, hx3, hg2e⟩ := zAp_ok hg2
  obtain ⟨g4, x4, hg4, hx4, hg3e⟩ := zAp_ok hg3
  obtain ⟨g5, x5, hg5, hx5, hg4e⟩ := zAp_ok hg4
  obtain ⟨g6, x6, hg6, hx6, hg5e⟩ := zAp_ok hg5
  have hmk : g6 = PluginDefinition.mk := by simpa using hg6.symm
  subst hy hg1e hg2e hg3e hg4e hg5e hmk
  rw [jStr_inv hx6, jStr_inv hx5,
    pOpt_inv (fun a y h2 => jStr_inv h2) hx4,
    pOpt_inv (fun a y h2 => jEnum_inv pluginFormatOfStrToStr h2) hx3,
    pOpt_inv (fun a y h2 => jStr_inv h2) hx2,
    pOpt_inv (fun a y h2 => jStr_inv h2) hx1]

theorem safeParse_inv {m y : CanonicalMidiMap}
    (h : safeParse (canonicalToJson m) = .ok y) : y = m := by
  simp only [safeParse, canonicalToJson, jObj, fSub, List.cons_append, List.nil_append,
    List.append_assoc, String.reduceEq, not_false_eq_true, ne_eq, getF_cons_hit,
    getF_cons_skip, getF_optEntry_self, getF_optEntry_ne, getF_optEntry_skip,
    getF_optEntry_hit, getF_nil, pReq, jArr] at h
  obtain ⟨g1, x1, hg1, hx1, hy⟩ := zAp_ok h
  obtain ⟨g2, x2, hg2, hx2, hg1e⟩ := zAp_ok hg1
  obtain ⟨g3, x3, hg3, hx3, hg2e⟩ := zAp_ok hg2
  obtain ⟨g4, x4, hg4, hx4, hg3e⟩ := zAp_ok hg3
  have hmk : g4 = CanonicalMidiMap.mk := by simpa using hg4.symm
  subst hy hg1e hg2e hg3e hmk
  rw [parseMetadata_inv hx4, parseController_inv hx3, parsePlugin_inv hx2,
    pElems_inv (fun p2 a y2 h2 => parseMidiMapping_inv h2) m.mappings _ 0 x1 hx1]

/-- One entry of the errors or warnings list of a ValidationResult: the
dot-joined field path, a message and a code. -/
structure ValidationIssue where
  path : String
  message : String
  code : String
deriving DecidableEq

/-- The validation outcome of the parser module (ValidationResult of the
canonical types). -/
structure ValidationResult where
  valid : Bool
  errors : List ValidationIssue
  warnings : List ValidationIssue
deriving DecidableEq

/-- Result of parseFromYAML / parseFromJSON: an optional typed map plus
the validation outcome. -/
structure ParseOutcome where
  map : Option CanonicalMidiMap
  validation : ValidationResult
deriving DecidableEq

/-- Conversion of a schema issue into the error shape of the parser
module: the path elements joined with dots. -/
def issueOfZod (i : ZodIssue) : ValidationIssue :=
  ⟨String.intercalate (".") i.path, i.message, i.code⟩

/-- JavaScript value || defaultValue on an optional number: the default is
used when the value is absent or zero (falsy). -/
def jsOrDefault (o : Option Rat) (d : Rat) : Rat :=
  match o with
  | some q => if q = 0 then d else q
  | none => d

/-- JavaScript template rendering of a number in the duplicate-input key:
integral values render as decimal integers; non-integral values (admitted
by the schema, which has no integrality check) are rendered as an
injective numerator/denominator form standing in for the decimal expansion
JavaScript would print. -/
def ratKeyStr (q : Rat) : String :=
  if q.den = 1 then jsNumToString q.num
  else jsNumToString q.num ++ "/" ++ Nat.repr q.den

/-- The MIDI-input triple a mapping entry is grouped by: input kind,
channel-or-default-1, number-or-default-0. -/
def inputTriple (m : MidiMapping) : MidiInputType × Rat × Rat :=
  (m.midiInput.type, jsOrDefault m.midiInput.channel 1, jsOrDefault m.midiInput.number 0)

/-- The grouping key string of generateWarnings:
type-channelOrDefault-numberOrDefault. -/
def midiInputKey (m : MidiMapping) : String :=
  m.midiInput.type.toStr ++ "-" ++ ratKeyStr (jsOrDefault m.midiInput.channel 1)
    ++ "-" ++ ratKeyStr (jsOrDefault m.midiInput.number 0)

/-- One step of the duplicate-input grouping: append the entry id to its
key's group, inserting a fresh group at the end on first sight (the JS Map
preserves insertion order). -/
def addInput (acc : List (String × List String)) (m : MidiMapping) :
    List (String × List String) :=
  if acc.any (fun p => p.1 == midiInputKey m) then
    acc.map (fun p => if p.1 == midiInputKey m then (p.1, p.2 ++ [m.id]) else p)
  else
    acc ++ [(midiInputKey m, [m.id])]

/-- The insertion-ordered grouping of mapping entries by MIDI-input key. -/
def collectMidiInputs (ms : List MidiMapping) : List (String × List String) :=
  ms.foldl addInput []

/-- The duplicate-input warnings: one per group with more than one member,
in group insertion order, naming all member ids in document order. -/
def dupWarnings (ms : List MidiMapping) : List ValidationIssue :=
  (collectMidiInputs ms).filterMap (fun p =>
    if p.2.length > 1 then
      some ⟨"mappings",
        "Duplicate MIDI input (" ++ p.1 ++ ") used by mappings: "
          ++ String.intercalate (", ") p.2,
        "DUPLICATE_MIDI_INPUT"⟩
    else none)

/-- CanonicalMapParser.generateWarnings: duplicate-input warnings followed
by the two missing-metadata advisories (absent or empty description and
author are falsy in the source's truthiness tests). -/
def generateWarnings (m : CanonicalMidiMap) : List ValidationIssue :=
  dupWarnings m.mappings
    ++ (if (m.metadata.description.getD ("")).isEmpty then
          [⟨"metadata.description",
            "Consider adding a description for better documentation",
            "MISSING_DESCRIPTION"⟩]
        else [])
    ++ (if (m.metadata.author.getD ("")).isEmpty then
          [⟨"metadata.author", "Consider adding an author for better tracking",
            "MISSING_AUTHOR"⟩]
        else [])

/-- CanonicalMapParser.validate: schema validation of an arbitrary decoded
document; warnings are computed only on success, errors only on failure. -/
def validate (raw : Json) : ValidationResult :=
  match safeParse raw with
  | .ok m => ⟨true, [], generateWarnings m⟩
  | .error errs => ⟨false, errs.map issueOfZod, []⟩

/-- CanonicalMapParser.parseFromYAML.  Modelled from the spec: the
external YAML decoder is represented by its outcome, either the decoded
document tree or the thrown message; the rest is the source's control
flow: decode failure short-circuits to the single root-level PARSE_ERROR,
success runs schema validation, and the success branch carries no
warnings. -/
def parseFromYAML (decoded : Except String Json) : ParseOutcome :=
  match decoded with
  | .ok raw =>
    match safeParse raw with
    | .ok m => ⟨some m, ⟨true, [], []⟩⟩
    | .error errs => ⟨none, ⟨false, errs.map issueOfZod, []⟩⟩
  | .error msg => ⟨none, ⟨false, [⟨"root", msg, "PARSE_ERROR"⟩], []⟩⟩

/-- CanonicalMapParser.parseFromJSON.  Modelled from the spec: the
JSON.parse decode layer is represented by its outcome; the control flow is
identical to parseFromYAML. -/
def parseFromJSON (decoded : Except String Json) : ParseOutcome :=
  match decoded with
  | .ok raw =>
    match safeParse raw with
    | .ok m => ⟨some m, ⟨true, [], []⟩⟩
    | .error errs => ⟨none, ⟨false, errs.map issueOfZod, []⟩⟩
  | .error msg => ⟨none, ⟨false, [⟨"root", msg, "PARSE_ERROR"⟩], []⟩⟩

/-- C1: round-trip law.  For every canonical map the schema validator
accepts, serializing it (to either surface syntax, modelled at document
tree level) and re-parsing yields a valid outcome with no errors and no
warnings, and a map that equals the original field for field. -/
theorem c1_round_trip (m : CanonicalMidiMap)
    (h : (validate (canonicalToJson m)).valid = true) :
    parseFromYAML (.ok (serializeToYAMLValue m)) = ⟨some m, ⟨true, [], []⟩⟩ ∧
    parseFromJSON (.ok (serializeToJSONValue m)) = ⟨some m, ⟨true, [], []⟩⟩ := by
  have hok : safeParse (canonicalToJson m) = .ok m := by
    cases hs : safeParse (canonicalToJson m) with
    | ok y => rw [safeParse_inv hs]
    | error errs => rw [validate, hs] at h; simp at h
  constructor
  · rw [parseFromYAML, serializeToYAMLValue, hok]
  · rw [parseFromJSON, serializeToJSONValue, hok]

/-- C1 witness: a concrete minimal canonical map accepted by the
validator. -/
theorem c1_round_trip_witness :
    (validate (canonicalToJson
      ⟨⟨"My Map", "1.0.0", none, none, none, none, none⟩,
       ⟨"Akai", "MPK249", none, none, none, none⟩,
       ⟨"U-he", "Diva", none, none, none, none⟩,
       [⟨"m1", none, ⟨.cc, some 1, some 64, none, none⟩,
         ⟨.parameter, "cutoff", none, none, none, none⟩, none, true⟩]⟩)).valid = true ∧
    parseFromYAML (.ok (serializeToYAMLValue
      ⟨⟨"My Map", "1.0.0", none, none, none, none, none⟩,
       ⟨"Akai", "MPK249", none, none, none, none⟩,
       ⟨"U-he", "Diva", none, none, none, none⟩,
       [⟨"m1", none, ⟨.cc, some 1, some 64, none, none⟩,
         ⟨.parameter, "cutoff", none, none, none, none⟩, none, true⟩]⟩)) =
      ⟨some ⟨⟨"My Map", "1.0.0", none, none, none, none, none⟩,
        ⟨"Akai", "MPK249", none, none, none, none⟩,
        ⟨"U-he", "Diva", none, none, none, none⟩,
        [⟨"m1", none, ⟨.cc, some 1, some 64, none, none⟩,
          ⟨.parameter, "cutoff", none, none, none, none⟩, none, true⟩]⟩,
       ⟨true, [], []⟩⟩ ∧
    parseFromJSON (.ok (serializeToJSONValue
      ⟨⟨"My Map", "1.0.0", none, none, none, none, none⟩,
       ⟨"Akai", "MPK249", none, none, none, none⟩,
       ⟨"U-he", "Diva", none, none, none, none⟩,
       [⟨"m1", none, ⟨.cc, some 1, some 64, none, none⟩,
         ⟨.parameter, "cutoff", none, none, none, none⟩, none, true⟩]⟩)) =
      ⟨some ⟨⟨"My Map", "1.0.0", none, none, none, none, none⟩,
        ⟨"Akai", "MPK249", none, none, none, none⟩,
        ⟨"U-he", "Diva", none, none, none, none⟩,
        [⟨"m1", none, ⟨.cc, some 1, some 64, none, none⟩,
          ⟨.parameter, "cutoff", none, none, none, none⟩, none, true⟩]⟩,
       ⟨true, [], []⟩⟩ :=
  ⟨by decide,
   (c1_round_trip
     ⟨⟨"My Map", "1.0.0", none, none, none, none, none⟩,
      ⟨"Akai", "MPK249", none, none, none, none⟩,
      ⟨"U-he", "Diva", none, none, none, none⟩,
      [⟨"m1", none, ⟨.cc, some 1, some 64, none, none⟩,
        ⟨.parameter, "cutoff", none, none, none, none⟩, none, true⟩]⟩
     (by decide)).1,
   (c1_round_trip
     ⟨⟨"My Map", "1.0.0", none, none, none, none, none⟩,
      ⟨"Akai", "MPK249", none, none, none, none⟩,
      ⟨"U-he", "Diva", none, none, none, none⟩,
      [⟨"m1", none, ⟨.cc, some 1, some 64, none, none⟩,
        ⟨.parameter, "cutoff", none, none, none, none⟩, none, true⟩]⟩
     (by decide)).2⟩

/-- No issue in the list carries the reserved document-level parse-error
code. -/
def IssuesOk (es : List ZodIssue) : Prop :=
  ∀ i ∈ es, i.code ≠ "PARSE_ERROR"

/-- Every issue a parse result can carry avoids the reserved parse-error
code. -/
def CodesOk {α : Type} : PR α → Prop
  | .ok _ => True
  | .error es => IssuesOk es

theorem issuesOk_one {α : Type} {pth : List String} {msg c : String}
    (h : c ≠ "PARSE_ERROR") : CodesOk (.error [⟨pth, msg, c⟩] : PR α) := by
  intro i hi
  simp at hi
  subst hi
  exact h

theorem zAp_codes {α β : Type} {f : PR (α → β)} {a : PR α}
    (hf : CodesOk f) (ha : CodesOk a) : CodesOk (zAp f a) := by
  cases f with
  | ok g =>
    cases a with
    | ok x => trivial
    | error e => exact ha
  | error e1 =>
    cases a with
    | ok x => exact hf
    | error e2 =>
      intro i hi
      rcases List.mem_append.1 hi with h | h
      · exact hf i h
      · exact ha i h

theorem jStr_codes (p : List String) (j : Json) : CodesOk (jStr p j) := by
  cases j <;> first
    | trivial
    | exact issuesOk_one (by decide)

theorem jBool_codes (p : List String) (j : Json) : CodesOk (jBool p j) := by
  cases j <;> first
    | trivial
    | exact issuesOk_one (by decide)

theorem jNum_codes (p : List String) (j : Json) : CodesOk (jNum p j) := by
  cases j <;> first
    | trivial
    | exact issuesOk_one (by decide)

theorem jNumRange_codes (lo hi : Rat) (p : List String) (j : Json) :
    CodesOk (jNumRange lo hi p j) := by
  cases j with
  | num q =>
    simp only [jNumRange]
    split
    · exact issuesOk_one (by decide)
    · split
      · exact issuesOk_one (by decide)
      · trivial
  | null => exact issuesOk_one (by decide)
  | bool b => exact issuesOk_one (by decide)
  | str s => exact issuesOk_one (by decide)
  | arr xs => exact issuesOk_one (by decide)
  | obj fs => exact issuesOk_one (by decide)

theorem jEnum_codes {α : Type} (dec : String → Option α) (p : List String) (j : Json) :
    CodesOk (jEnum dec p j) := by
  cases j with
  | str s =>
    simp only [jEnum]
    split
    · trivial
    · exact issuesOk_one (by decide)
  | null => exact issuesOk_one (by decide)
  | bool b => exact issuesOk_one (by decide)
  | num q => exact issuesOk_one (by decide)
  | arr xs => exact issuesOk_one (by decide)
  | obj fs => exact issuesOk_one (by decide)

theorem pReq_codes {α : Type} {p : List String} {f : Json → PR α}
    (h : ∀ v, CodesOk (f v)) (o : Option Json) : CodesOk (pReq p f o) := by
  cases o with
  | some v => exact h v
  | none => exact issuesOk_one (by decide)

theorem pOpt_codes {α : Type} {f : Json → PR α}
    (h : ∀ v, CodesOk (f v)) (o : Option Json) : CodesOk (pOpt f o) := by
  cases o with
  | none => trivial
  | some v =>
    simp only [pOpt]
    cases hf : f v with
    | ok a => simp [Except.map, CodesOk]
    | error e =>
      have h2 := h v
      rw [hf] at h2
      simpa [Except.map, CodesOk] using h2

theorem pDefault_codes {α : Type} {f : Json → PR α} {d : α}
    (h : ∀ v, CodesOk (f v)) (o : Option Json) : CodesOk (pDefault f d o) := by
  cases o with
  | none => trivial
  | some v => exact h v

theorem pElems_codes {α : Type} {f : List String → Json → PR α}
    (h : ∀ p v, CodesOk (f p v)) (p : List String) :
    ∀ (xs : List Json) (i : Nat), CodesOk (pElems f p i xs) := by
  intro xs
  induction xs with
  | nil => intro i; trivial
  | cons x t ih =>
    intro i
    exact zAp_codes (zAp_codes (by trivial) (h _ x)) (ih (i + 1))

theorem jArr_codes {α : Type} {f : List String → Json → PR α}
    (h : ∀ p v, CodesOk (f p v)) (p : List String) (j : Json) :
    CodesOk (jArr f p j) := by
  cases j with
  | arr xs => exact pElems_codes h p xs 0
  | null => exact issuesOk_one (by decide)
  | bool b => exact issuesOk_one (by decide)
  | num q => exact issuesOk_one (by decide)
  | str s => exact issuesOk_one (by decide)
  | obj fs => exact issuesOk_one (by decide)

theorem jObj_codes {α : Type} {p : List String} {f : List (String × Json) → PR α}
    (h : ∀ fs, CodesOk (f fs)) (j : Json) : CodesOk (jObj p f j) := by
  cases j with
  | obj fs => exact h fs
  | null => exact issuesOk_one (by decide)
  | bool b => exact issuesOk_one (by decide)
  | num q => exact issuesOk_one (by decide)
  | str s => exact issuesOk_one (by decide)
  | arr xs => exact issuesOk_one (by decide)

theorem parseValueRange_codes (p : List String) (j : Json) :
    CodesOk (parseValueRange p j) :=
  jObj_codes (fun fs =>
    zAp_codes (zAp_codes (zAp_codes (by trivial)
      (pReq_codes (fun v => jNum_codes _ v) _))
      (pReq_codes (fun v => jNum_codes _ v) _))
      (pOpt_codes (fun v => jNum_codes _ v) _)) j

theorem parseInputBehavior_codes (p : List String) (j : Json) :
    CodesOk (parseInputBehavior p j) :=
  jObj_codes (fun fs =>
    zAp_codes (zAp_codes (zAp_codes (zAp_codes (zAp_codes (by trivial)
      (pOpt_codes (fun v => jEnum_codes _ _ v) _))
      (pOpt_codes (fun v => jNumRange_codes 0 1 _ v) _))
      (pOpt_codes (fun v => jNumRange_codes 0 1 _ v) _))
      (pOpt_codes (fun v => jEnum_codes _ _ v) _))
      (pOpt_codes (fun v => jBool_codes _ v) _)) j

theorem parseMappingBehavior_codes (p : List String) (j : Json) :
    CodesOk (parseMappingBehavior p j) :=
  jObj_codes (fun fs =>
    zAp_codes (zAp_codes (zAp_codes (zAp_codes (zAp_codes (by trivial)
      (pOpt_codes (fun v => jEnum_codes _ _ v) _))
      (pOpt_codes (fun v => jArr_codes (fun p2 v2 => jNum_codes p2 v2) _ v) _))
      (pOpt_codes (fun v => jNum_codes _ v) _))
      (pOpt_codes (fun v => jNumRange_codes 0 1 _ v) _))
      (pOpt_codes (fun v => jBool_codes _ v) _)) j

theorem parseMidiInput_codes (p : List String) (j : Json) :
    CodesOk (parseMidiInput p j) :=
  jObj_codes (fun fs =>
    zAp_codes (zAp_codes (zAp_codes (zAp_codes (zAp_codes (by trivial)
      (pReq_codes (fun v => jEnum_codes _ _ v) _))
      (pOpt_codes (fun v => jNumRange_codes 1 16 _ v) _))
      (pOpt_codes (fun v => jNumRange_codes 0 127 _ v) _))
      (pOpt_codes (fun v => parseValueRange_codes _ v) _))
      (pOpt_codes (fun v => parseInputBehavior_codes _ v) _)) j

theorem parsePluginTarget_codes (p : List String) (j : Json) :
    CodesOk (parsePluginTarget p j) :=
  jObj_codes (fun fs =>
    zAp_codes (zAp_codes (zAp_codes (zAp_codes (zAp_codes (zAp_codes (by trivial)
      (pReq_codes (fun v => jEnum_codes _ _ v) _))
      (pReq_codes (fun v => jStr_codes _ v) _))
      (pOpt_codes (fun v => jStr_codes _ v) _))
      (pOpt_codes (fun v => parseValueRange_codes _ v) _))
      (pOpt_codes (fun v => jStr_codes _ v) _))
      (pOpt_codes (fun v => jStr_codes _ v) _)) j

theorem parseMidiMapping_codes (p : List String) (j : Json) :
    CodesOk (parseMidiMapping p j) :=
  jObj_codes (fun fs =>
    zAp_codes (zAp_codes (zAp_codes (zAp_codes (zAp_codes (zAp_codes (by trivial)
      (pReq_codes (fun v => jStr_codes _ v) _))
      (pOpt_codes (fun v => jStr_codes _ v) _))
      (pReq_codes (fun v => parseMidiInput_codes _ v) _))
      (pReq_codes (fun v => parsePluginTarget_codes _ v) _))
      (pOpt_codes (fun v => parseMappingBehavior_codes _ v) _))
      (pDefault_codes (fun v => jBool_codes _ v) _)) j

theorem parseMetadata_codes (p : List String) (j : Json) :
    CodesOk (parseMetadata p j) :=
  jObj_codes (fun fs =>
    zAp_codes (zAp_codes (zAp_codes (zAp_codes (zAp_codes (zAp_codes (zAp_codes
      (by trivial)
      (pReq_codes (fun v => jStr_codes _ v) _))
      (pReq_codes (fun v => jStr_codes _ v) _))
      (pOpt_codes (fun v => jStr_codes _ v) _))
      (pOpt_codes (fun v => jStr_codes _ v) _))
      (pOpt_codes (fun v => jStr_codes _ v) _))
      (pOpt_codes (fun v => jStr_codes _ v) _))
      (pOpt_codes (fun v => jArr_codes (fun p2 v2 => jStr_codes p2 v2) _ v) _)) j

theorem parseController_codes (p : List String) (j : Json) :
    CodesOk (parseController p j) :=
  jObj_codes (fun fs =>
    zAp_codes (zAp_codes (zAp_codes (zAp_codes (zAp_codes (zAp_codes (by trivial)
      (pReq_codes (fun v => jStr_codes _ v) _))
      (pReq_codes (fun v => jStr_codes _ v) _))
      (pOpt_codes (fun v => jStr_codes _ v) _))
      (pOpt_codes (fun v => jStr_codes _ v) _))
      (pOpt_codes (fun v => jNumRange_codes 1 16 _ v) _))
      (pOpt_codes (fun v => jStr_codes _ v) _)) j

theorem parsePlugin_codes (p : List String) (j : Json) :
    CodesOk (parsePlugin p j) :=
  jObj_codes (fun fs =>
    zAp_codes (zAp_codes (zAp_codes (zAp_codes (zAp_codes (zAp_codes (by trivial)
      (pReq_codes (fun v => jStr_codes _ v) _))
      (pReq_codes (fun v => jStr_codes _ v) _))
      (pOpt_codes (fun v => jStr_codes _ v) _))
      (pOpt_codes (fun v => jEnum_codes _ _ v) _))
      (pOpt_codes (fun v => jStr_codes _ v) _))
      (pOpt_codes (fun v => jStr_codes _ v) _)) j

theorem safeParse_codes (j : Json) : CodesOk (safeParse j) :=
  jObj_codes (fun fs =>
    zAp_codes (zAp_codes (zAp_codes (zAp_codes (by trivial)
      (pReq_codes (fun v => parseMetadata_codes _ v) _))
      (pReq_codes (fun v => parseController_codes _ v) _))
      (pReq_codes (fun v => parsePlugin_codes _ v) _))
      (pReq_codes (fun v => jArr_codes (fun p2 v2 => parseMidiMapping_codes p2 v2) _ v) _)) j

/-- C8: decode-failure error contract.  When the underlying decode throws,
both parse entry points return no map and a validation outcome with
valid = false whose error list is exactly one document-level error at path
root carrying the reserved PARSE_ERROR code; and no error ever produced by
a schema violation (the successful-decode branch) carries that reserved
code. -/
theorem c8_decode_failure_contract (e : String) :
    parseFromYAML (.error e) =
      ⟨none, ⟨false, [⟨"root", e, "PARSE_ERROR"⟩], []⟩⟩ ∧
    parseFromJSON (.error e) =
      ⟨none, ⟨false, [⟨"root", e, "PARSE_ERROR"⟩], []⟩⟩ ∧
    (∀ (j : Json), ∀ v ∈ (parseFromYAML (.ok j)).validation.errors,
      v.code ≠ "PARSE_ERROR") ∧
    (∀ (j : Json), ∀ v ∈ (parseFromJSON (.ok j)).validation.errors,
      v.code ≠ "PARSE_ERROR") := by
  have hcore : ∀ (j : Json), ∀ v ∈ ((match safeParse j with
      | .ok m => (⟨some m, ⟨true, [], []⟩⟩ : ParseOutcome)
      | .error errs => ⟨none, ⟨false, errs.map issueOfZod, []⟩⟩) :
        ParseOutcome).validation.errors, v.code ≠ "PARSE_ERROR" := by
    intro j v hv
    have hc := safeParse_codes j
    cases hs : safeParse j with
    | ok m => rw [hs] at hv; simp at hv
    | error errs =>
      rw [hs] at hv hc
      simp only [List.mem_map] at hv
      obtain ⟨i, hi, hvi⟩ := hv
      rw [← hvi]
      exact hc i hi
  exact ⟨rfl, rfl, fun j => hcore j, fun j => hcore j⟩

/-- C8 witness: a concrete thrown decode message, and a concrete schema
violation whose code differs from the reserved one. -/
theorem c8_decode_failure_contract_witness :
    parseFromYAML (.error ("unexpected token")) =
      ⟨none, ⟨false, [⟨"root", "unexpected token", "PARSE_ERROR"⟩], []⟩⟩ ∧
    (⟨"", "Expected object", "invalid_type"⟩ : ValidationIssue) ∈
      (parseFromYAML (.ok Json.null)).validation.errors ∧
    (⟨"", "Expected object", "invalid_type"⟩ : ValidationIssue).code ≠ "PARSE_ERROR" :=
  ⟨(c8_decode_failure_contract ("unexpected token")).1,
   by decide,
   (c8_decode_failure_contract ("unexpected token")).2.2.1 Json.null
     ⟨"", "Expected object", "invalid_type"⟩ (by decide)⟩

/-- Decimal digit list of a natural number (most significant first): the
recursive characterization of the digits Nat.repr emits. -/
def natChars (n : Nat) : List Char :=
  if n < 10 then [Nat.digitChar n]
  else natChars (n / 10) ++ [Nat.digitChar (n % 10)]
decreasing_by omega

theorem toDigitsCore_eq (fuel : Nat) :
    ∀ (n : Nat) (ds : List Char), n < fuel →
      Nat.toDigitsCore 10 fuel n ds = natChars n ++ ds := by
  induction fuel with
  | zero => intro n ds h; omega
  | succ f ih =>
    intro n ds h
    simp only [Nat.toDigitsCore]
    by_cases hz : n / 10 = 0
    · rw [if_pos hz]
      have h10 : n < 10 := by omega
      have hm : n % 10 = n := by omega
      rw [natChars, if_pos h10, hm]
      rfl
    · rw [if_neg hz]
      have hlt : n / 10 < f := by omega
      rw [ih (n / 10) _ hlt]
      conv_rhs => rw [natChars]
      have h10 : ¬(n < 10) := by omega
      rw [if_neg h10]
      simp

theorem natRepr_data (n : Nat) : (Nat.repr n).data = natChars n := by
  show (Nat.toDigits 10 n).asString.data = natChars n
  unfold Nat.toDigits
  rw [toDigitsCore_eq (n + 1) n [] (by omega)]
  simp [List.asString]

/-- Numeric value of one decimal digit character. -/
def digitVal (c : Char) : Nat := c.toNat - 48

/-- Value of a most-significant-first digit list. -/
def ofDigits (l : List Char) : Nat :=
  l.foldl (fun a c => a * 10 + digitVal c) 0

theorem ofDigits_concat (l : List Char) (c : Char) :
    ofDigits (l ++ [c]) = ofDigits l * 10 + digitVal c := by
  simp [ofDigits, List.foldl_append]

theorem digitVal_digitChar {k : Nat} (hk : k < 10) :
    digitVal (Nat.digitChar k) = k := by
  interval_cases k <;> rfl

theorem ofDigits_natChars (n : Nat) : ofDigits (natChars n) = n := by
  induction n using Nat.strong_induction_on with
  | _ n ih =>
    by_cases h : n < 10
    · rw [natChars, if_pos h]
      show 0 * 10 + digitVal (Nat.digitChar n) = n
      rw [digitVal_digitChar h]
      omega
    · rw [natChars, if_neg h, ofDigits_concat, ih (n / 10) (by omega),
        digitVal_digitChar (Nat.mod_lt n (by omega))]
      omega

theorem natRepr_inj {a b : Nat} (h : Nat.repr a = Nat.repr b) : a = b := by
  have hd : natChars a = natChars b := by
    rw [← natRepr_data, ← natRepr_data, h]
  calc a = ofDigits (natChars a) := (ofDigits_natChars a).symm
    _ = ofDigits (natChars b) := by rw [hd]
    _ = b := ofDigits_natChars b

/-- Characters that are neither the dash nor the slash used as separators
in the duplicate-input key. -/
def SepFree (c : Char) : Prop := c ≠ '-' ∧ c ≠ '/'

instance (c : Char) : Decidable (SepFree c) := by
  unfold SepFree; infer_instance

theorem sepFree_ite {p : Prop} [Decidable p] {a b : Char}
    (ha : SepFree a) (hb : SepFree b) : SepFree (if p then a else b) := by
  by_cases h : p
  · simpa [h] using ha
  · simpa [h] using hb

theorem digitChar_sepFree (n : Nat) : SepFree (Nat.digitChar n) := by
  unfold Nat.digitChar
  repeat' apply sepFree_ite
  all_goals decide

theorem natChars_sepFree (n : Nat) : ∀ c ∈ natChars n, SepFree c := by
  induction n using Nat.strong_induction_on with
  | _ n ih =>
    intro c hc
    by_cases h : n < 10
    · rw [natChars, if_pos h] at hc
      simp at hc
      subst hc
      exact digitChar_sepFree n
    · rw [natChars, if_neg h] at hc
      rcases List.mem_append.1 hc with hm | hm
      · exact ih (n / 10) (by omega) c hm
      · simp at hm; subst hm; exact digitChar_sepFree (n % 10)

theorem natRepr_sepFree (n : Nat) : ∀ c ∈ (Nat.repr n).data, SepFree c := by
  rw [natRepr_data]
  exact natChars_sepFree n

theorem jsNumToString_nonneg {i : Int} (h : 0 ≤ i) :
    jsNumToString i = Nat.repr i.toNat := by
  cases i with
  | ofNat m => rfl
  | negSucc m => exact absurd h (by simp [Int.negSucc_not_nonneg])

theorem jsNumToString_inj_nonneg {a b : Int} (ha : 0 ≤ a) (hb : 0 ≤ b)
    (h : jsNumToString a = jsNumToString b) : a = b := by
  rw [jsNumToString_nonneg ha, jsNumToString_nonneg hb] at h
  have := natRepr_inj h
  omega

theorem jsNumToString_sepFree {i : Int} (h : 0 ≤ i) :
    ∀ c ∈ (jsNumToString i).data, SepFree c := by
  rw [jsNumToString_nonneg h]
  exact natRepr_sepFree i.toNat

theorem ratKeyStr_dashFree {q : Rat} (h : 0 ≤ q) :
    ∀ c ∈ (ratKeyStr q).data, c ≠ '-' := by
  have hnum : 0 ≤ q.num := Rat.num_nonneg.2 h
  unfold ratKeyStr
  split
  · intro c hc
    exact (jsNumToString_sepFree hnum c hc).1
  · intro c hc
    simp only [String.data_append] at hc
    rcases List.mem_append.1 hc with hc2 | hc2
    · rcases List.mem_append.1 hc2 with hc3 | hc3
      · exact (jsNumToString_sepFree hnum c hc3).1
      · simp at hc3; subst hc3; decide
    · exact (natRepr_sepFree q.den c hc2).1

theorem sepSplit {sep : Char} {a b a2 b2 : List Char}
    (ha : ∀ c ∈ a, c ≠ sep) (ha2 : ∀ c ∈ a2, c ≠ sep)
    (h : a ++ sep :: b = a2 ++ sep :: b2) : a = a2 ∧ b = b2 := by
  induction a generalizing a2 with
  | nil =>
    cases a2 with
    | nil => simpa using h
    | cons x xs =>
      simp at h
      exact absurd h.1.symm (ha2 x (by simp))
  | cons x xs ih =>
    cases a2 with
    | nil =>
      simp at h
      exact absurd h.1 (ha x (by simp))
    | cons x2 xs2 =>
      simp at h
      obtain ⟨hx, ht⟩ := h
      obtain ⟨e1, e2⟩ := ih (fun c hc => ha c (by simp [hc]))
        (fun c hc => ha2 c (by simp [hc])) ht
      exact ⟨by rw [hx, e1], e2⟩

theorem stringData_inj {s t : String} (h : s.data = t.data) : s = t :=
  String.ext h

theorem ratKeyStr_inj {q r : Rat} (hq : 0 ≤ q) (hr : 0 ≤ r)
    (h : ratKeyStr q = ratKeyStr r) : q = r := by
  have hqn : 0 ≤ q.num := Rat.num_nonneg.2 hq
  have hrn : 0 ≤ r.num := Rat.num_nonneg.2 hr
  unfold ratKeyStr at h
  by_cases h1 : q.den = 1 <;> by_cases h2 : r.den = 1
  · rw [if_pos h1, if_pos h2] at h
    exact Rat.ext (jsNumToString_inj_nonneg hqn hrn h) (h1.trans h2.symm)
  · rw [if_pos h1, if_neg h2] at h
    exfalso
    have hmem : '/' ∈ (jsNumToString r.num ++ "/" ++ Nat.repr r.den).data := by
      simp only [String.data_append]
      exact List.mem_append.2 (Or.inl (List.mem_append.2 (Or.inr (by decide))))
    rw [← h] at hmem
    exact (jsNumToString_sepFree hqn '/' hmem).2 rfl
  · rw [if_neg h1, if_pos h2] at h
    exfalso
    have hmem : '/' ∈ (jsNumToString q.num ++ "/" ++ Nat.repr q.den).data := by
      simp only [String.data_append]
      exact List.mem_append.2 (Or.inl (List.mem_append.2 (Or.inr (by decide))))
    rw [h] at hmem
    exact (jsNumToString_sepFree hrn '/' hmem).2 rfl
  · rw [if_neg h1, if_neg h2] at h
    have hdata := congrArg String.data h
    simp only [String.data_append] at hdata
    have hq2 : (jsNumToString q.num).data ++ '/' :: (Nat.repr q.den).data =
        (jsNumToString r.num).data ++ '/' :: (Nat.repr r.den).data := by
      simpa [List.append_assoc] using hdata
    obtain ⟨e1, e2⟩ := sepSplit
      (fun c hc => (jsNumToString_sepFree hqn c hc).2)
      (fun c hc => (jsNumToString_sepFree hrn c hc).2) hq2
    have hnum : q.num = r.num :=
      jsNumToString_inj_nonneg hqn hrn (stringData_inj e1)
    have hden : q.den = r.den := natRepr_inj (stringData_inj e2)
    exact Rat.ext hnum hden

theorem midiTypeStr_dashFree (t : MidiInputType) :
    ∀ c ∈ (MidiInputType.toStr t).data, c ≠ '-' := by
  cases t <;> decide

theorem midiTypeStr_inj {t t' : MidiInputType}
    (h : MidiInputType.toStr t = MidiInputType.toStr t') : t = t' := by
  cases t <;> cases t' <;> first
    | rfl
    | exact absurd h (by decide)

theorem midiInputKey_eq_of_triple {m m' : MidiMapping}
    (h : inputTriple m = inputTriple m') : midiInputKey m = midiInputKey m' := by
  unfold inputTriple at h
  simp only [Prod.mk.injEq] at h
  obtain ⟨h1, h2, h3⟩ := h
  unfold midiInputKey
  rw [h1, h2, h3]

theorem midiInputKey_inj {m m' : MidiMapping}
    (hcq : 0 ≤ jsOrDefault m.midiInput.channel 1)
    (hcr : 0 ≤ jsOrDefault m'.midiInput.channel 1)
    (hnq : 0 ≤ jsOrDefault m.midiInput.number 0)
    (hnr : 0 ≤ jsOrDefault m'.midiInput.number 0)
    (h : midiInputKey m = midiInputKey m') : inputTriple m = inputTriple m' := by
  unfold midiInputKey at h
  have hdata := congrArg String.data h
  simp only [String.data_append] at hdata
  have hshaped : (MidiInputType.toStr m.midiInput.type).data ++
      '-' :: ((ratKeyStr (jsOrDefault m.midiInput.channel 1)).data ++
        '-' :: (ratKeyStr (jsOrDefault m.midiInput.number 0)).data) =
      (MidiInputType.toStr m'.midiInput.type).data ++
      '-' :: ((ratKeyStr (jsOrDefault m'.midiInput.channel 1)).data ++
        '-' :: (ratKeyStr (jsOrDefault m'.midiInput.number 0)).data) := by
    simpa [List.append_assoc] using hdata
  obtain ⟨e1, e2⟩ := sepSplit (midiTypeStr_dashFree m.midiInput.type)
    (midiTypeStr_dashFree m'.midiInput.type) hshaped
  obtain ⟨e3, e4⟩ := sepSplit (ratKeyStr_dashFree hcq) (ratKeyStr_dashFree hcr) e2
  unfold inputTriple
  rw [midiTypeStr_inj (stringData_inj e1),
    ratKeyStr_inj hcq hcr (stringData_inj e3),
    ratKeyStr_inj hnq hnr (stringData_inj e4)]

theorem jObj_ok {α : Type} {p : List String} {f : List (String × Json) → PR α}
    {j : Json} {y : α} (h : jObj p f j = .ok y) :
    ∃ fs, j = .obj fs ∧ f fs = .ok y := by
  cases j with
  | obj fs => exact ⟨fs, rfl, h⟩
  | null => simp [jObj] at h
  | bool b => simp [jObj] at h
  | num q => simp [jObj] at h
  | str s => simp [jObj] at h
  | arr xs => simp [jObj] at h

theorem pReq_ok {α : Type} {p : List String} {f : Json → PR α} {o : Option Json}
    {y : α} (h : pReq p f o = .ok y) : ∃ v, o = some v ∧ f v = .ok y := by
  cases o with
  | some v => exact ⟨v, rfl, h⟩
  | none => simp [pReq] at h

theorem pOpt_ok_some {α : Type} {f : Json → PR α} {o : Option Json}
    {y : Option α} {a : α} (h : pOpt f o = .ok y) (hy : y = some a) :
    ∃ v, o = some v ∧ f v = .ok a := by
  subst hy
  cases o with
  | none => simp [pOpt] at h
  | some v =>
    simp only [pOpt] at h
    cases hf : f v with
    | error e => rw [hf] at h; simp [Except.map] at h
    | ok b =>
      rw [hf] at h
      simp [Except.map] at h
      exact ⟨v, rfl, by rw [hf, h]⟩

theorem jNumRange_bounds {lo hi : Rat} {p : List String} {v : Json} {q : Rat}
    (h : jNumRange lo hi p v = .ok q) : lo ≤ q ∧ q ≤ hi := by
  cases v with
  | num x =>
    simp only [jNumRange] at h
    split at h
    · simp at h
    · rename_i h1
      split at h
      · simp at h
      · rename_i h2
        simp at h
        subst h
        exact ⟨not_lt.1 h1, not_lt.1 h2⟩
  | null => simp [jNumRange] at h
  | bool b => simp [jNumRange] at h
  | str s => simp [jNumRange] at h
  | arr xs => simp [jNumRange] at h
  | obj fs => simp [jNumRange] at h

theorem pElems_ok_forall {α : Type} {f : List String → Json → PR α} {p : List String} :
    ∀ (js : List Json) (i : Nat) (ys : List α), pElems f p i js = .ok ys →
      ∀ y ∈ ys, ∃ p2 v, f p2 v = .ok y := by
  intro js
  induction js with
  | nil =>
    intro i ys h y hy
    simp [pElems] at h
    subst h
    simp at hy
  | cons x t ih =>
    intro i ys h y hy
    simp only [pElems] at h
    obtain ⟨g1, xr, hg1, hxr, hys⟩ := zAp_ok h
    obtain ⟨g2, xh, hg2, hxh, hg1e⟩ := zAp_ok hg1
    have hcons : g2 = List.cons := by simpa using hg2.symm
    subst hcons hg1e hys
    rcases List.mem_cons.1 hy with he | hm
    · exact ⟨_, x, by rw [← he] at hxh; exact hxh⟩
    · exact ih (i + 1) xr hxr y hm

theorem parseMidiInput_ranges {p : List String} {j : Json} {d : MidiInputDefinition}
    (h : parseMidiInput p j = .ok d) :
    (∀ q, d.channel = some q → 1 ≤ q ∧ q ≤ 16) ∧
    (∀ q, d.number = some q → 0 ≤ q ∧ q ≤ 127) := by
  unfold parseMidiInput at h
  obtain ⟨fs, hj, hf⟩ := jObj_ok h
  obtain ⟨g1, x1, hg1, hx1, hy⟩ := zAp_ok hf
  obtain ⟨g2, x2, hg2, hx2, hg1e⟩ := zAp_ok hg1
  obtain ⟨g3, x3, hg3, hx3, hg2e⟩ := zAp_ok hg2
  obtain ⟨g4, x4, hg4, hx4, hg3e⟩ := zAp_ok hg3
  obtain ⟨g5, x5, hg5, hx5, hg4e⟩ := zAp_ok hg4
  have hmk : g5 = MidiInputDefinition.mk := by simpa using hg5.symm
  subst hy hg1e hg2e hg3e hg4e hmk
  constructor
  · intro q hq
    obtain ⟨v, hv, hfv⟩ := pOpt_ok_some (by exact hx4) hq
    exact jNumRange_bounds hfv
  · intro q hq
    obtain ⟨v, hv, hfv⟩ := pOpt_ok_some (by exact hx3) hq
    exact jNumRange_bounds hfv

theorem parseMidiMapping_midiInput {p : List String} {j : Json} {mm : MidiMapping}
    (h : parseMidiMapping p j = .ok mm) :
    ∃ p2 v, parseMidiInput p2 v = .ok mm.midiInput := by
  unfold parseMidiMapping at h
  obtain ⟨fs, hj, hf⟩ := jObj_ok h
  obtain ⟨g1, x1, hg1, hx1, hy⟩ := zAp_ok hf
  obtain ⟨g2, x2, hg2, hx2, hg1e⟩ := zAp_ok hg1
  obtain ⟨g3, x3, hg3, hx3, hg2e⟩ := zAp_ok hg2
  obtain ⟨g4, x4, hg4, hx4, hg3e⟩ := zAp_ok hg3
  obtain ⟨g5, x5, hg5, hx5, hg4e⟩ := zAp_ok hg4
  obtain ⟨g6, x6, hg6, hx6, hg5e⟩ := zAp_ok hg5
  have hmk : g6 = MidiMapping.mk := by simpa using hg6.symm
  subst hy hg1e hg2e hg3e hg4e hg5e hmk
  unfold fSub at hx4
  obtain ⟨v, hv, hfv⟩ := pReq_ok hx4
  exact ⟨_, v, hfv⟩

theorem safeParse_mappings {j : Json} {m : CanonicalMidiMap}
    (h : safeParse j = .ok m) :
    ∀ mm ∈ m.mappings, ∃ p2 v, parseMidiMapping p2 v = .ok mm := by
  unfold safeParse at h
  obtain ⟨fs, hj, hf⟩ := jObj_ok h
  obtain ⟨g1, x1, hg1, hx1, hy⟩ := zAp_ok hf
  obtain ⟨g2, x2, hg2, hx2, hg1e⟩ := zAp_ok hg1
  obtain ⟨g3, x3, hg3, hx3, hg2e⟩ := zAp_ok hg2
  obtain ⟨g4, x4, hg4, hx4, hg3e⟩ := zAp_ok hg3
  have hmk : g4 = CanonicalMidiMap.mk := by simpa using hg4.symm
  subst hy hg1e hg2e hg3e hmk
  obtain ⟨v, hv, hfv⟩ := pReq_ok hx1
  cases v with
  | arr xs =>
    intro mm hmm
    exact pElems_ok_forall xs 0 x1 hfv mm hmm
  | null => simp [jArr] at hfv
  | bool b => simp [jArr] at hfv
  | num q => simp [jArr] at hfv
  | str s => simp [jArr] at hfv
  | obj fs2 => simp [jArr] at hfv

theorem jsOrDefault_cases (o : Option Rat) (d : Rat) :
    jsOrDefault o d = d ∨ ∃ q, o = some q ∧ q ≠ 0 ∧ jsOrDefault o d = q := by
  cases o with
  | none => exact Or.inl rfl
  | some q =>
    by_cases h : q = 0
    · exact Or.inl (by simp [jsOrDefault, h])
    · exact Or.inr ⟨q, rfl, h, by simp [jsOrDefault, h]⟩

theorem safeParse_triple_nonneg {j : Json} {m : CanonicalMidiMap}
    (h : safeParse j = .ok m) :
    ∀ mm ∈ m.mappings, 0 ≤ jsOrDefault mm.midiInput.channel 1 ∧
      0 ≤ jsOrDefault mm.midiInput.number 0 := by
  intro mm hmm
  obtain ⟨p2, v, hv⟩ := safeParse_mappings h mm hmm
  obtain ⟨p3, w, hw⟩ := parseMidiMapping_midiInput hv
  obtain ⟨hch, hnum⟩ := parseMidiInput_ranges hw
  constructor
  · rcases jsOrDefault_cases mm.midiInput.channel 1 with he | ⟨q, hq, -, he⟩
    · rw [he]; norm_num
    · rw [he]; exact le_trans (by norm_num) (hch q hq).1
  · rcases jsOrDefault_cases mm.midiInput.number 0 with he | ⟨q, hq, -, he⟩
    · rw [he]
    · rw [he]; exact (hnum q hq).1

/-- The ids of the entries with a given key, in document order: the
intended content of that key's group. -/
def idsWith (k : String) (ms : List MidiMapping) : List String :=
  (ms.filter (fun m => midiInputKey m == k)).map (fun m => m.id)

theorem idsWith_append_singleton (k : String) (ms : List MidiMapping) (z : MidiMapping) :
    idsWith k (ms ++ [z]) =
      idsWith k ms ++ (if midiInputKey z = k then [z.id] else []) := by
  unfold idsWith
  by_cases h : midiInputKey z = k
  · simp [List.filter_append, h]
  · simp [List.filter_append, h]

theorem collect_spec (ms : List MidiMapping) :
    (∀ p ∈ collectMidiInputs ms, p.2 = idsWith p.1 ms) ∧
    ((collectMidiInputs ms).map Prod.fst).Nodup ∧
    (∀ k, k ∈ (collectMidiInputs ms).map Prod.fst ↔ ∃ mm ∈ ms, midiInputKey mm = k) := by
  induction ms using List.reverseRecOn with
  | nil => simp [collectMidiInputs, idsWith]
  | append_singleton ms z ih =>
    obtain ⟨ih1, ih2, ih3⟩ := ih
    have hstep : collectMidiInputs (ms ++ [z]) = addInput (collectMidiInputs ms) z := by
      simp [collectMidiInputs, List.foldl_append]
    rw [hstep]
    unfold addInput
    by_cases hmem : (collectMidiInputs ms).any (fun p => p.1 == midiInputKey z) = true
    · rw [if_pos hmem]
      have hkeyz : midiInputKey z ∈ (collectMidiInputs ms).map Prod.fst := by
        simp only [List.any_eq_true, beq_iff_eq] at hmem
        obtain ⟨p0, hp0, he⟩ := hmem
        exact List.mem_map.2 ⟨p0, hp0, he⟩
      have hfst : (((collectMidiInputs ms).map
          (fun p => if p.1 == midiInputKey z then (p.1, p.2 ++ [z.id]) else p)).map
            Prod.fst) = (collectMidiInputs ms).map Prod.fst := by
        rw [List.map_map]
        refine List.map_congr_left ?_
        intro p hp
        by_cases he : p.1 = midiInputKey z <;> simp [he]
      refine ⟨?_, ?_, ?_⟩
      · intro p hp
        obtain ⟨p0, hp0, hup⟩ := List.mem_map.1 hp
        by_cases he : p0.1 = midiInputKey z
        · rw [← hup, if_pos (by simp [he])]
          show p0.2 ++ [z.id] = idsWith p0.1 (ms ++ [z])
          rw [idsWith_append_singleton, if_pos he.symm, ← ih1 p0 hp0]
        · rw [← hup, if_neg (by simp [he])]
          show p0.2 = idsWith p0.1 (ms ++ [z])
          rw [idsWith_append_singleton, if_neg (fun hc => he hc.symm), List.append_nil]
          exact ih1 p0 hp0
      · rw [hfst]
        exact ih2
      · intro k
        rw [hfst, ih3]
        constructor
        · rintro ⟨mm, hmm, hk⟩
          exact ⟨mm, by simp [hmm], hk⟩
        · rintro ⟨mm, hmm, hk⟩
          rcases List.mem_append.1 hmm with hin | hin
          · exact ⟨mm, hin, hk⟩
          · simp at hin
            subst hin
            rw [ih3] at hkeyz
            obtain ⟨m0, hm0, hkm0⟩ := hkeyz
            exact ⟨m0, hm0, by rw [hkm0, hk]⟩
    · rw [if_neg hmem]
      have hnot : ∀ p ∈ collectMidiInputs ms, p.1 ≠ midiInputKey z := by
        intro p hp hc
        exact hmem (List.any_eq_true.2 ⟨p, hp, by simp [hc]⟩)
      have hno_ms : ∀ mm ∈ ms, midiInputKey mm ≠ midiInputKey z := by
        intro mm hmm hc
        have : midiInputKey z ∈ (collectMidiInputs ms).map Prod.fst :=
          (ih3 (midiInputKey z)).2 ⟨mm, hmm, hc⟩
        obtain ⟨p, hp, hf⟩ := List.mem_map.1 this
        exact hnot p hp hf
      refine ⟨?_, ?_, ?_⟩
      · intro p hp
        rcases List.mem_append.1 hp with hin | hin
        · rw [idsWith_append_singleton, if_neg (fun hc => hnot p hin hc.symm),
            List.append_nil]
          exact ih1 p hin
        · simp at hin
          subst hin
          show [z.id] = idsWith (midiInputKey z) (ms ++ [z])
          rw [idsWith_append_singleton, if_pos rfl]
          have hempty : idsWith (midiInputKey z) ms = [] := by
            unfold idsWith
            rw [List.filter_eq_nil_iff.2 (fun mm hmm => by simp [hno_ms mm hmm])]
            rfl
          rw [hempty, List.nil_append]
      · rw [List.map_append]
        rw [List.nodup_append]
        refine ⟨ih2, by simp, ?_⟩
        intro a ha hb
        simp at hb
        subst hb
        obtain ⟨p, hp, hf⟩ := List.mem_map.1 ha
        exact hnot p hp hf
      · intro k
        rw [List.map_append]
        constructor
        · intro hk
          rcases List.mem_append.1 hk with hin | hin
          · obtain ⟨mm, hmm, hf⟩ := (ih3 k).1 hin
            exact ⟨mm, by simp [hmm], hf⟩
          · simp at hin
            subst hin
            exact ⟨z, by simp, rfl⟩
        · rintro ⟨mm, hmm, hk⟩
          rcases List.mem_append.1 hmm with hin | hin
          · exact List.mem_append.2 (Or.inl ((ih3 k).2 ⟨mm, hin, hk⟩))
          · simp at hin
            subst hin
            exact List.mem_append.2 (Or.inr (by simp [hk]))

theorem filter_key_le_one {l : List MidiMapping} {k : String}
    (hp : l.Pairwise (fun a b => midiInputKey a ≠ midiInputKey b)) :
    (l.filter (fun m => midiInputKey m == k)).length ≤ 1 := by
  induction l with
  | nil => simp
  | cons a t ih =>
    have hrel := (List.pairwise_cons.1 hp).1
    have hpt := (List.pairwise_cons.1 hp).2
    rw [List.filter_cons]
    by_cases hk : midiInputKey a = k
    · rw [if_pos (by simp [hk])]
      have hnil : t.filter (fun m => midiInputKey m == k) = [] := by
        rw [List.filter_eq_nil_iff]
        intro b hb
        simp only [beq_iff_eq]
        intro hc
        exact hrel b hb (by rw [hk, hc])
      simp [hnil]
    · rw [if_neg (by simp [hk])]
      exact ih hpt

/-- C4: duplicate-input warning.  For every document that validates
successfully into a map holding exactly two mapping entries x and y (in
that document order) that share the MIDI-input triple, all remaining
entries having pairwise distinct triples different from the shared one,
validate yields a valid outcome whose warnings hold exactly one
duplicate-input warning, and its message names both entry ids in document
order. -/
theorem c4_duplicate_input_warning (j : Json) (m : CanonicalMidiMap)
    (pre mid post : List MidiMapping) (x y : MidiMapping)
    (hok : safeParse j = .ok m)
    (hms : m.mappings = pre ++ x :: (mid ++ y :: post))
    (hxy : inputTriple x = inputTriple y)
    (hothers : ∀ z ∈ pre ++ mid ++ post, inputTriple z ≠ inputTriple x)
    (hpair : (pre ++ mid ++ post).Pairwise (fun a b => inputTriple a ≠ inputTriple b)) :
    (validate j).valid = true ∧
    (validate j).warnings.filter (fun w => w.code == "DUPLICATE_MIDI_INPUT") =
      [⟨"mappings",
        "Duplicate MIDI input (" ++ midiInputKey x ++ ") used by mappings: "
          ++ (x.id ++ ", " ++ y.id),
        "DUPLICATE_MIDI_INPUT"⟩] := by
  have hkxy : midiInputKey x = midiInputKey y := midiInputKey_eq_of_triple hxy
  have hbounds := safeParse_triple_nonneg hok
  have hx_mem : x ∈ m.mappings := by rw [hms]; simp
  have hy_mem : y ∈ m.mappings := by rw [hms]; simp
  have hoth_mem : ∀ z ∈ pre ++ mid ++ post, z ∈ m.mappings := by
    intro z hz
    rw [hms]
    simp only [List.mem_append, List.mem_cons] at hz ⊢
    tauto
  have hkoth : ∀ z ∈ pre ++ mid ++ post, midiInputKey z ≠ midiInputKey x := by
    intro z hz hc
    exact hothers z hz (midiInputKey_inj (hbounds z (hoth_mem z hz)).1
      (hbounds x hx_mem).1 (hbounds z (hoth_mem z hz)).2 (hbounds x hx_mem).2 hc)
  have hkpair : (pre ++ mid ++ post).Pairwise
      (fun a b => midiInputKey a ≠ midiInputKey b) := by
    refine hpair.imp_of_mem ?_
    intro a b ha hb hr hc
    exact hr (midiInputKey_inj (hbounds a (hoth_mem a ha)).1
      (hbounds b (hoth_mem b hb)).1 (hbounds a (hoth_mem a ha)).2
      (hbounds b (hoth_mem b hb)).2 hc)
  have hprex : ∀ z ∈ pre, (midiInputKey z == midiInputKey x) = false := by
    intro z hz
    simp only [beq_eq_false_iff_ne, ne_eq]
    exact hkoth z (by simp [hz])
  have hmidx : ∀ z ∈ mid, (midiInputKey z == midiInputKey x) = false := by
    intro z hz
    simp only [beq_eq_false_iff_ne, ne_eq]
    exact hkoth z (by simp [hz])
  have hpostx : ∀ z ∈ post, (midiInputKey z == midiInputKey x) = false := by
    intro z hz
    simp only [beq_eq_false_iff_ne, ne_eq]
    exact hkoth z (by simp [hz])
  have hids : idsWith (midiInputKey x) m.mappings = [x.id, y.id] := by
    rw [hms]
    unfold idsWith
    rw [List.filter_append, List.filter_cons, List.filter_append, List.filter_cons]
    rw [List.filter_eq_nil_iff.2 (fun z hz => by simp [hprex z hz])]
    rw [List.filter_eq_nil_iff.2 (fun z hz => by simp [hmidx z hz])]
    rw [List.filter_eq_nil_iff.2 (fun z hz => by simp [hpostx z hz])]
    simp [← hkxy]
  have hshort : ∀ k, k ≠ midiInputKey x → (idsWith k m.mappings).length ≤ 1 := by
    intro k hk
    unfold idsWith
    rw [List.length_map, hms]
    have hx2 : (midiInputKey x == k) = false := by
      simp only [beq_eq_false_iff_ne, ne_eq]
      exact fun hc => hk hc.symm
    have hy2 : (midiInputKey y == k) = false := by
      rw [hkxy] at hx2
      exact hx2
    have hfil : (pre ++ x :: (mid ++ y :: post)).filter
        (fun mm => midiInputKey mm == k) =
        (pre ++ mid ++ post).filter (fun mm => midiInputKey mm == k) := by
      simp [List.filter_append, List.filter_cons, hx2, hy2, List.append_assoc]
    rw [hfil]
    exact filter_key_le_one hkpair
  obtain ⟨hc1, hc2, hc3⟩ := collect_spec m.mappings
  obtain ⟨p, hpA, hpfst⟩ :=
    List.mem_map.1 ((hc3 (midiInputKey x)).2 ⟨x, hx_mem, rfl⟩)
  have hp2 : p.2 = [x.id, y.id] := by
    rw [hc1 p hpA, hpfst, hids]
  have hw : (if p.2.length > 1 then
        some (⟨"mappings",
          "Duplicate MIDI input (" ++ p.1 ++ ") used by mappings: "
            ++ String.intercalate (", ") p.2,
          "DUPLICATE_MIDI_INPUT"⟩ : ValidationIssue)
      else none) = some ⟨"mappings",
        "Duplicate MIDI input (" ++ midiInputKey x ++ ") used by mappings: "
          ++ (x.id ++ ", " ++ y.id),
        "DUPLICATE_MIDI_INPUT"⟩ := by
    rw [hp2, hpfst]
    rfl
  have hnone : ∀ q ∈ collectMidiInputs m.mappings, q.1 ≠ p.1 →
      (fun p : String × List String =>
        if p.2.length > 1 then
          some (⟨"mappings",
            "Duplicate MIDI input (" ++ p.1 ++ ") used by mappings: "
              ++ String.intercalate (", ") p.2,
            "DUPLICATE_MIDI_INPUT"⟩ : ValidationIssue)
        else none) q = none := by
    intro q hq hne
    have hlen : q.2.length ≤ 1 := by
      rw [hc1 q hq]
      exact hshort q.1 (by rw [hpfst] at hne; exact hne)
    show (if q.2.length > 1 then _ else none) = none
    rw [if_neg (by omega)]
  obtain ⟨s, t, hA⟩ := List.append_of_mem hpA
  have hc2' := hc2
  rw [hA, List.map_append, List.map_cons] at hc2'
  have hnds := List.nodup_append.1 hc2'
  have hpt : p.1 ∉ t.map Prod.fst := (List.nodup_cons.1 hnds.2.1).1
  have hps : p.1 ∉ s.map Prod.fst := by
    intro hc
    exact hnds.2.2 hc (by simp)
  have hdup : dupWarnings m.mappings = [⟨"mappings",
      "Duplicate MIDI input (" ++ midiInputKey x ++ ") used by mappings: "
        ++ (x.id ++ ", " ++ y.id),
      "DUPLICATE_MIDI_INPUT"⟩] := by
    unfold dupWarnings
    rw [hA, List.filterMap_append, List.filterMap_cons]
    rw [List.filterMap_eq_nil_iff.2 (fun q hq => hnone q (by rw [hA]; simp [hq])
      (fun hc => hps (hc ▸ List.mem_map.2 ⟨q, hq, rfl⟩)))]
    rw [hw]
    rw [List.filterMap_eq_nil_iff.2 (fun q hq => hnone q (by rw [hA]; simp [hq])
      (fun hc => hpt (hc ▸ List.mem_map.2 ⟨q, hq, rfl⟩)))]
    rfl
  have hval : validate j = ⟨true, [], generateWarnings m⟩ := by
    rw [validate, hok]
  refine ⟨by rw [hval], ?_⟩
  rw [hval]
  show (generateWarnings m).filter (fun w => w.code == "DUPLICATE_MIDI_INPUT") = _
  unfold generateWarnings
  rw [List.filter_append, List.filter_append, hdup]
  have hm1 : (if (m.metadata.description.getD ("")).isEmpty then
      [(⟨"metadata.description",
        "Consider adding a description for better documentation",
        "MISSING_DESCRIPTION"⟩ : ValidationIssue)]
      else []).filter (fun w => w.code == "DUPLICATE_MIDI_INPUT") = [] := by
    split <;> simp
  have hm2 : (if (m.metadata.author.getD ("")).isEmpty then
      [(⟨"metadata.author", "Consider adding an author for better tracking",
        "MISSING_AUTHOR"⟩ : ValidationIssue)]
      else []).filter (fun w => w.code == "DUPLICATE_MIDI_INPUT") = [] := by
    split <;> simp
  rw [hm1, hm2]
  simp

/-- C4 witness: a concrete valid map with exactly two entries sharing
(cc, channel 1, number 64). -/
theorem c4_duplicate_input_warning_witness :
    safeParse (canonicalToJson
      ⟨⟨"M", "1.0.0", none, none, none, none, none⟩,
       ⟨"A", "B", none, none, none, none⟩,
       ⟨"C", "D", none, none, none, none⟩,
       [⟨"a", none, ⟨.cc, some 1, some 64, none, none⟩,
          ⟨.parameter, "p1", none, none, none, none⟩, none, true⟩,
        ⟨"b", none, ⟨.cc, some 1, some 64, none, none⟩,
          ⟨.parameter, "p2", none, none, none, none⟩, none, true⟩]⟩) = .ok
      ⟨⟨"M", "1.0.0", none, none, none, none, none⟩,
       ⟨"A", "B", none, none, none, none⟩,
       ⟨"C", "D", none, none, none, none⟩,
       [⟨"a", none, ⟨.cc, some 1, some 64, none, none⟩,
          ⟨.parameter, "p1", none, none, none, none⟩, none, true⟩,
        ⟨"b", none, ⟨.cc, some 1, some 64, none, none⟩,
          ⟨.parameter, "p2", none, none, none, none⟩, none, true⟩]⟩ ∧
    ((validate (canonicalToJson
      ⟨⟨"M", "1.0.0", none, none, none, none, none⟩,
       ⟨"A", "B", none, none, none, none⟩,
       ⟨"C", "D", none, none, none, none⟩,
       [⟨"a", none, ⟨.cc, some 1, some 64, none, none⟩,
          ⟨.parameter, "p1", none, none, none, none⟩, none, true⟩,
        ⟨"b", none, ⟨.cc, some 1, some 64, none, none⟩,
          ⟨.parameter, "p2", none, none, none, none⟩, none, true⟩]⟩)).valid = true ∧
     (validate (canonicalToJson
      ⟨⟨"M", "1.0.0", none, none, none, none, none⟩,
       ⟨"A", "B", none, none, none, none⟩,
       ⟨"C", "D", none, none, none, none⟩,
       [⟨"a", none, ⟨.cc, some 1, some 64, none, none⟩,
          ⟨.parameter, "p1", none, none, none, none⟩, none, true⟩,
        ⟨"b", none, ⟨.cc, some 1, some 64, none, none⟩,
          ⟨.parameter, "p2", none, none, none, none⟩, none, true⟩]⟩)).warnings.filter
        (fun w => w.code == "DUPLICATE_MIDI_INPUT") =
      [⟨"mappings",
        "Duplicate MIDI input (" ++ midiInputKey
          ⟨"a", none, ⟨.cc, some 1, some 64, none, none⟩,
            ⟨.parameter, "p1", none, none, none, none⟩, none, true⟩ ++
          ") used by mappings: " ++
          ((⟨"a", none, ⟨.cc, some 1, some 64, none, none⟩,
            ⟨.parameter, "p1", none, none, none, none⟩, none, true⟩ : MidiMapping).id ++
            ", " ++
            (⟨"b", none, ⟨.cc, some 1, some 64, none, none⟩,
              ⟨.parameter, "p2", none, none, none, none⟩, none, true⟩ : MidiMapping).id),
        "DUPLICATE_MIDI_INPUT"⟩]) :=
  ⟨by rfl,
   c4_duplicate_input_warning
     (canonicalToJson
       ⟨⟨"M", "1.0.0", none, none, none, none, none⟩,
        ⟨"A", "B", none, none, none, none⟩,
        ⟨"C", "D", none, none, none, none⟩,
        [⟨"a", none, ⟨.cc, some 1, some 64, none, none⟩,
           ⟨.parameter, "p1", none, none, none, none⟩, none, true⟩,
         ⟨"b", none, ⟨.cc, some 1, some 64, none, none⟩,
           ⟨.parameter, "p2", none, none, none, none⟩, none, true⟩]⟩)
     ⟨⟨"M", "1.0.0", none, none, none, none, none⟩,
      ⟨"A", "B", none, none, none, none⟩,
      ⟨"C", "D", none, none, none, none⟩,
      [⟨"a", none, ⟨.cc, some 1, some 64, none, none⟩,
         ⟨.parameter, "p1", none, none, none, none⟩, none, true⟩,
       ⟨"b", none, ⟨.cc, some 1, some 64, none, none⟩,
         ⟨.parameter, "p2", none, none, none, none⟩, none, true⟩]⟩
     [] [] []
     ⟨"a", none, ⟨.cc, some 1, some 64, none, none⟩,
       ⟨.parameter, "p1", none, none, none, none⟩, none, true⟩
     ⟨"b", none, ⟨.cc, some 1, some 64, none, none⟩,
       ⟨.parameter, "p2", none, none, none, none⟩, none, true⟩
     (by rfl) (by decide) (by decide) (by simp) List.Pairwise.nil⟩
